import Mathlib

/-! # Identity and Authorization Gateway: access control, token codec, identity normalizer

A shallow embedding of the Go packages `models` (user.go), `utils` (jwt.go), `auth`
(oauth.go), `middleware` (auth.go, rbac.go) and `handlers` (auth.go), with the properties of
their role / permission checks, of the signed session token, of the identity normalizer, of
the request guard chain and of the OAuth callback.

Go strings are modelled by Lean `String` (sequences of Unicode scalar values: a Go string
that is not valid UTF-8 has no counterpart), slices by `List`, a nil slice and an empty one
alike by `[]`, and the Go `map` literal `RolePermissions` by an association list with distinct
keys. Readings of `time.Now()` are explicit arguments.
-/

namespace models

/-- Wall-clock instant (`time.Time`), as nanoseconds since the Unix epoch. -/
abbrev Time := Int

/-- The struct `User` of user.go. -/
structure User where
  ID : String
  Email : String
  Name : String
  Picture : String
  Provider : String
  Roles : List String
  Created : Time
  deriving DecidableEq, Repr

/-- The type `Role` of user.go (`type Role string`). -/
abbrev Role := String

def RoleAdmin : Role := "admin"
def RoleUser : Role := "user"
def RoleViewer : Role := "viewer"

/-- The struct `Permission` of user.go. -/
structure Permission where
  Resource : String
  Action : String
  deriving DecidableEq, Repr

/-- The map literal `RolePermissions` of user.go, as an association list. -/
def RolePermissions : List (Role × List Permission) :=
  [ (RoleAdmin, [⟨"*", "*"⟩]),
    (RoleUser, [⟨"profile", "read"⟩, ⟨"profile", "update"⟩, ⟨"data", "read"⟩, ⟨"data", "create"⟩]),
    (RoleViewer, [⟨"profile", "read"⟩, ⟨"data", "read"⟩]) ]

/-- The inner loop of `HasPermission`: `for _, perm := range permissions`, where each of
the three tests returns `true` from the whole function. -/
def permLoop (resource action : String) : List Permission → Bool
  | [] => false
  | perm :: rest =>
    if perm.Resource = "*" ∧ perm.Action = "*" then true
    else if perm.Resource = resource ∧ perm.Action = "*" then true
    else if perm.Resource = resource ∧ perm.Action = action then true
    else permLoop resource action rest

/-- The outer loop of `HasPermission`: `for _, roleName := range u.Roles`, with `continue`
for a role that is no key of `RolePermissions`. -/
def roleLoop (resource action : String) : List String → Bool
  | [] => false
  | roleName :: rest =>
    match RolePermissions.lookup roleName with
    | none => roleLoop resource action rest
    | some permissions =>
      if permLoop resource action permissions then true
      else roleLoop resource action rest

/-- The method `(u *User) HasPermission(resource, action string) bool`. -/
def User.HasPermission (u : User) (resource action : String) : Bool :=
  roleLoop resource action u.Roles

/-- The loop of `HasRole`: `for _, r := range u.Roles`. -/
def hasRoleLoop (role : String) : List String → Bool
  | [] => false
  | r :: rest => if r = role then true else hasRoleLoop role rest

/-- The method `(u *User) HasRole(role string) bool`. -/
def User.HasRole (u : User) (role : String) : Bool :=
  hasRoleLoop role u.Roles

/-- A permission grants `(resource, action)`: one of the three tests of `HasPermission`. -/
def Grants (p : Permission) (resource action : String) : Prop :=
  (p.Resource = "*" ∧ p.Action = "*") ∨
  (p.Resource = resource ∧ p.Action = "*") ∨
  (p.Resource = resource ∧ p.Action = action)

end models

/-! ## The token library as `utils/jwt.go` uses it

`jwt.go` calls `github.com/golang-jwt/jwt/v5` and, through it, `crypto/hmac`,
`encoding/json` and `encoding/base64`; none of them is part of the repository. The
algorithm of the library (compact serialisation in three dot-separated segments, lookup of
the signing method named by the header, key selection by callback, HMAC verification,
validation of `exp` and `nbf`) is written out below. Its leaf primitives, the hash functions and
the base64url / JSON segment codecs, are the fields of `jwt.Lib` and stay parameters of everything
that follows. -/

namespace jwt

/-- A byte string (`[]byte`), each element below 256. -/
abbrev Bytes := List Nat

/-- The conversion `[]byte(s)` of a Go string: its UTF-8 bytes. -/
def bytesOf (s : String) : Bytes :=
  s.toUTF8.data.toList.map UInt8.toNat

/-- `strings.Split(s, sep)` for a one-character separator, on character lists. -/
def splitChars (sep : Char) : List Char → List (List Char)
  | [] => [[]]
  | c :: cs =>
    if c = sep then [] :: splitChars sep cs
    else
      match splitChars sep cs with
      | [] => [[c]]
      | p :: ps => (c :: p) :: ps

/-- `strings.Split(s, sep)` for a one-character separator. -/
def stringsSplit (s : String) (sep : Char) : List String :=
  (splitChars sep s.toList).map String.mk

/-- The hash functions behind the HMAC signing methods. -/
inductive HashAlg
  | SHA256
  | SHA384
  | SHA512
  deriving DecidableEq, Repr

/-- Block size in bytes of each hash function (`hash.Hash.BlockSize`). -/
def HashAlg.blockSize : HashAlg → Nat
  | .SHA256 => 64
  | .SHA384 => 128
  | .SHA512 => 128

/-- The signing methods the library registers, by family. Only the HMAC family is
`*jwt.SigningMethodHMAC`. -/
inductive SigningMethod
  | HMAC (h : HashAlg)
  | RSA (h : HashAlg)
  | RSAPSS (h : HashAlg)
  | ECDSA (h : HashAlg)
  | Ed25519
  | None
  deriving DecidableEq, Repr

/-- The registry filled by the library at start-up (`RegisterSigningMethod`). -/
def signingMethods : List (String × SigningMethod) :=
  [ ("HS256", .HMAC .SHA256), ("HS384", .HMAC .SHA384), ("HS512", .HMAC .SHA512),
    ("RS256", .RSA .SHA256), ("RS384", .RSA .SHA384), ("RS512", .RSA .SHA512),
    ("PS256", .RSAPSS .SHA256), ("PS384", .RSAPSS .SHA384), ("PS512", .RSAPSS .SHA512),
    ("ES256", .ECDSA .SHA256), ("ES384", .ECDSA .SHA384), ("ES512", .ECDSA .SHA512),
    ("EdDSA", .Ed25519), ("none", .None) ]

/-- `jwt.GetSigningMethod(alg)`: `nil` for a name that is not registered. -/
def GetSigningMethod (alg : String) : Option SigningMethod :=
  signingMethods.lookup alg

/-- The header of a token, as far as the library reads it: the fields `alg` and `typ`,
each absent (`none`) or a string. -/
structure Header where
  alg : Option String
  typ : Option String
  deriving DecidableEq, Repr

/-- `jwt.RegisteredClaims`. A `*NumericDate` is `none` for nil and otherwise a whole number
of seconds since the Unix epoch (`TimePrecision` is one second). -/
structure RegisteredClaims where
  Issuer : String
  Subject : String
  Audience : List String
  ExpiresAt : Option Int
  NotBefore : Option Int
  IssuedAt : Option Int
  ID : String
  deriving DecidableEq, Repr

/-- The sentinel errors of the library that `ParseWithClaims` can return here. -/
inductive Error
  | ErrTokenMalformed
  | ErrTokenUnverifiable (detail : String)
  | ErrTokenSignatureInvalid
  | ErrInvalidKeyType
  | ErrTokenExpired
  | ErrTokenNotValidYet
  deriving DecidableEq, Repr

/-- `jwt.NewNumericDate(t)`: the instant truncated to whole seconds (rounded down, for an
instant after the zero `time.Time`). -/
def NewNumericDate (t : models.Time) : Option Int :=
  some (t / 1000000000)

/-- The instant a `NumericDate` stands for, in nanoseconds. -/
def NumericDate.time (seconds : Int) : models.Time :=
  seconds * 1000000000

/-- The key block of `hmac.New`: a key longer than the block is hashed first, then the key
is copied into a zeroed buffer of one block. -/
def hmacKeyBlock (H : Bytes → Bytes) (blockSize : Nat) (key : Bytes) : Bytes :=
  let k := if key.length > blockSize then H key else key
  (k ++ List.replicate (blockSize - k.length) 0).take blockSize

/-- The tag of `crypto/hmac`: `H(opad ‖ H(ipad ‖ msg))` over the key block. -/
def hmacSum (H : Bytes → Bytes) (blockSize : Nat) (key msg : Bytes) : Bytes :=
  let block := hmacKeyBlock H blockSize key
  let ipad := block.map (fun b => Nat.xor b 0x36)
  let opad := block.map (fun b => Nat.xor b 0x5c)
  H (opad ++ H (ipad ++ msg))

end jwt

namespace utils

/-- The struct `Claims` of jwt.go. -/
structure Claims where
  UserID : String
  Email : String
  Name : String
  Roles : List String
  Provider : String
  RegisteredClaims : jwt.RegisteredClaims
  deriving DecidableEq, Repr

end utils

namespace jwt

/-- The primitives below the library: the hash function of each HMAC method, and the
segment codecs (JSON inside unpadded base64url for header and claims, unpadded base64url for
the signature). A decoder answers `none` for a segment it cannot decode. -/
structure Lib where
  hash : HashAlg → Bytes → Bytes
  encodeHeader : Header → String
  decodeHeader : String → Option Header
  encodeClaims : utils.Claims → String
  decodeClaims : String → Option utils.Claims
  encodeSignature : Bytes → String
  decodeSignature : String → Option Bytes

/-- `jwt.Token`, with the claims type of jwt.go. -/
structure Token where
  Raw : String
  Method : SigningMethod
  Header : Header
  Claims : utils.Claims
  Signature : Bytes
  Valid : Bool

/-- `SigningMethodHMAC.Sign`: the HMAC tag of the signing string under the key. -/
def hmacSign (L : Lib) (h : HashAlg) (signingString : String) (key : Bytes) : Bytes :=
  hmacSum (L.hash h) h.blockSize key (bytesOf signingString)

/-- `Token.SigningString`: the encoded header, a dot, the encoded claims. -/
def SigningString (L : Lib) (header : Header) (claims : utils.Claims) : String :=
  L.encodeHeader header ++ "." ++ L.encodeClaims claims

/-- The header `jwt.NewWithClaims` writes for `jwt.SigningMethodHS256`. -/
def headerHS256 : Header := ⟨some "HS256", some "JWT"⟩

/-- The signature of `claims` under `key` with `jwt.SigningMethodHS256`: the HMAC-SHA256 tag
of the signing string. -/
def signatureHS256 (L : Lib) (claims : utils.Claims) (key : Bytes) : Bytes :=
  hmacSign L .SHA256 (SigningString L headerHS256 claims) key

/-- `jwt.NewWithClaims(jwt.SigningMethodHS256, claims)` followed by `SignedString(key)`:
the header is `typ: JWT, alg: HS256`, and the token is the signing string, a dot and the
encoded signature. With a `[]byte` key and claims that `encoding/json` can marshal, as here,
the library has no error to return. -/
def SignedStringHS256 (L : Lib) (claims : utils.Claims) (key : Bytes) : Except Error String :=
  .ok (SigningString L headerHS256 claims ++ "." ++
    L.encodeSignature (signatureHS256 L claims key))

/-- `SigningMethod.Verify` with a `[]byte` key: the HMAC methods compare the signature with
the tag they compute (`hmac.Equal`); every other method refuses a `[]byte` key. -/
def Verify (L : Lib) (method : SigningMethod) (signingString : String) (sig key : Bytes) :
    Except Error Unit :=
  match method with
  | .HMAC h =>
    if sig = hmacSign L h signingString key then .ok () else .error .ErrTokenSignatureInvalid
  | _ => .error .ErrInvalidKeyType

/-- `Validator.Validate` with the default options: `exp`, when present, must be after `now`,
and `nbf`, when present, must not be after `now`; `iat`, issuer, subject and audience are
not checked. -/
def validateClaims (now : models.Time) (claims : utils.Claims) : Except Error Unit :=
  let expOk : Bool :=
    match claims.RegisteredClaims.ExpiresAt with
    | none => true
    | some exp => decide (now < NumericDate.time exp)
  let nbfOk : Bool :=
    match claims.RegisteredClaims.NotBefore with
    | none => true
    | some nbf => decide (NumericDate.time nbf ≤ now)
  if !expOk then .error .ErrTokenExpired
  else if !nbfOk then .error .ErrTokenNotValidYet
  else .ok ()

/-- `Parser.ParseWithClaims(tokenString, &Claims{}, keyFunc)` with the default parser, `now`
being the reading of `time.Now()` in the validator. In order: three segments, header, claims,
signing method of the header, signature segment, key callback, signature, claims. -/
def ParseWithClaims (L : Lib) (now : models.Time) (tokenString : String)
    (keyFunc : Token → Except String Bytes) : Except Error Token :=
  match stringsSplit tokenString '.' with
  | [p0, p1, p2] =>
    match L.decodeHeader p0 with
    | none => .error .ErrTokenMalformed
    | some header =>
      match L.decodeClaims p1 with
      | none => .error .ErrTokenMalformed
      | some claims =>
        match header.alg with
        | none => .error (.ErrTokenUnverifiable "signing method (alg) is unspecified")
        | some alg =>
          match GetSigningMethod alg with
          | none => .error (.ErrTokenUnverifiable "signing method (alg) is unavailable")
          | some method =>
            match L.decodeSignature p2 with
            | none => .error .ErrTokenMalformed
            | some sig =>
              let token : Token := ⟨tokenString, method, header, claims, sig, false⟩
              match keyFunc token with
              | .error e => .error (.ErrTokenUnverifiable e)
              | .ok key =>
                match Verify L method (p0 ++ "." ++ p1) sig key with
                | .error e => .error e
                | .ok _ =>
                  match validateClaims now claims with
                  | .error e => .error e
                  | .ok _ => .ok { token with Valid := true }
  | _ => .error .ErrTokenMalformed

/-- The segment codecs of `L` are faithful on one header, one claims value and one signature:
each is decoded to itself after encoding, and no encoded segment holds a dot (the base64url
alphabet has none). -/
structure FaithfulOn (L : Lib) (header : Header) (claims : utils.Claims) (sig : Bytes) :
    Prop where
  header_eq : L.decodeHeader (L.encodeHeader header) = some header
  claims_eq : L.decodeClaims (L.encodeClaims claims) = some claims
  sig_eq : L.decodeSignature (L.encodeSignature sig) = some sig
  header_nodot : '.' ∉ (L.encodeHeader header).toList
  claims_nodot : '.' ∉ (L.encodeClaims claims).toList
  sig_nodot : '.' ∉ (L.encodeSignature sig).toList

end jwt

/-! ### A plain-text instance of the primitives

Used only to exhibit concrete inputs on which the statements below apply: the identity
function stands for the hash functions, fields separated by `|` stand for JSON, and a shift
of every character by 256 stands for base64url. -/

namespace plain

open jwt

def encNat (n : Nat) : List Char := Nat.toDigits 10 n

def decNat (cs : List Char) : Nat := cs.foldl (fun acc c => 10 * acc + (c.toNat - 48)) 0

def encInt : Int → List Char
  | .ofNat n => encNat n
  | .negSucc n => '-' :: encNat (n + 1)

def decInt : List Char → Int
  | '-' :: cs => - (decNat cs : Int)
  | cs => (decNat cs : Int)

def encOpt {α : Type} (f : α → List Char) : Option α → List Char
  | none => []
  | some a => '=' :: f a

def decOpt {α : Type} (f : List Char → α) : List Char → Option α
  | [] => none
  | _ :: cs => some (f cs)

def encList (xs : List String) : List Char := xs.flatMap (fun x => x.toList ++ [','])

def decList (cs : List Char) : List String := (splitChars ',' cs).dropLast.map String.mk

def armor (cs : List Char) : String := String.mk (cs.map (fun c => Char.ofNat (c.toNat + 256)))

def unarmor (s : String) : List Char := s.toList.map (fun c => Char.ofNat (c.toNat - 256))

def encodeHeader (h : Header) : String :=
  armor (List.intercalate ['|'] [encOpt String.toList h.alg, encOpt String.toList h.typ])

def decodeHeader (s : String) : Option Header :=
  match splitChars '|' (unarmor s) with
  | [a, t] => some ⟨decOpt String.mk a, decOpt String.mk t⟩
  | _ => none

def encodeClaims (c : utils.Claims) : String :=
  armor (List.intercalate ['|']
    [ c.UserID.toList, c.Email.toList, c.Name.toList, encList c.Roles, c.Provider.toList,
      c.RegisteredClaims.Issuer.toList, c.RegisteredClaims.Subject.toList,
      encList c.RegisteredClaims.Audience, encOpt encInt c.RegisteredClaims.ExpiresAt,
      encOpt encInt c.RegisteredClaims.NotBefore, encOpt encInt c.RegisteredClaims.IssuedAt,
      c.RegisteredClaims.ID.toList ])

def decodeClaims (s : String) : Option utils.Claims :=
  match splitChars '|' (unarmor s) with
  | [uid, email, name, roles, provider, iss, sub, aud, exp, nbf, iat, jti] =>
    some
      { UserID := String.mk uid
        Email := String.mk email
        Name := String.mk name
        Roles := decList roles
        Provider := String.mk provider
        RegisteredClaims :=
          { Issuer := String.mk iss
            Subject := String.mk sub
            Audience := decList aud
            ExpiresAt := decOpt decInt exp
            NotBefore := decOpt decInt nbf
            IssuedAt := decOpt decInt iat
            ID := String.mk jti } }
  | _ => none

def encodeSignature (sig : Bytes) : String :=
  String.mk (sig.map (fun b => Char.ofNat (b + 256)))

def decodeSignature (s : String) : Option Bytes :=
  some (s.toList.map (fun c => c.toNat - 256))

/-- The plain-text instance. -/
def lib : Lib :=
  { hash := fun _ bs => bs
    encodeHeader := encodeHeader
    decodeHeader := decodeHeader
    encodeClaims := encodeClaims
    decodeClaims := decodeClaims
    encodeSignature := encodeSignature
    decodeSignature := decodeSignature }

end plain

namespace utils

/-- The errors jwt.go builds with `fmt.Errorf`. -/
inductive Error
  | failedToSign (err : jwt.Error)
  | failedToParse (err : jwt.Error)
  | invalidToken
  deriving DecidableEq, Repr

/-- Product `a * b` of two `int64` values, as Go computes it: wrapped into the `int64` range. -/
def mulInt64 (a b : Int) : Int :=
  (a * b + 2 ^ 63) % 2 ^ 64 - 2 ^ 63

/-- The constant `time.Hour`, in nanoseconds. -/
def timeHour : Int := 3600000000000

/-- The struct literal `claims := Claims{...}` of `GenerateJWT`. The three calls of
`time.Now()` are the readings `now1`, `now2`, `now3`, in the order of the literal. -/
def newClaims (now1 now2 now3 : models.Time) (user : models.User) (expirationHours : Int) :
    Claims :=
  { UserID := user.ID
    Email := user.Email
    Name := user.Name
    Roles := user.Roles
    Provider := user.Provider
    RegisteredClaims :=
      { ExpiresAt := jwt.NewNumericDate (now1 + mulInt64 timeHour expirationHours)
        IssuedAt := jwt.NewNumericDate now2
        NotBefore := jwt.NewNumericDate now3
        Issuer := "microservice-authenticator"
        Subject := user.ID
        Audience := []
        ID := "" } }

/-- `GenerateJWT(user, secret, expirationHours)`, with the three clock readings of
`newClaims`. -/
def GenerateJWT (L : jwt.Lib) (now1 now2 now3 : models.Time) (user : models.User)
    (secret : String) (expirationHours : Int) : Except Error String :=
  let claims := newClaims now1 now2 now3 user expirationHours
  match jwt.SignedStringHS256 L claims (jwt.bytesOf secret) with
  | .error err => .error (.failedToSign err)
  | .ok tokenString => .ok tokenString

/-- The key callback of `ValidateJWT`: the secret for a method of the HMAC family, an error
for any other method. -/
def keyFunc (secret : String) (token : jwt.Token) : Except String jwt.Bytes :=
  match token.Method with
  | .HMAC _ => .ok (jwt.bytesOf secret)
  | _ => .error ("unexpected signing method: " ++ token.Header.alg.getD "")

/-- `ValidateJWT(tokenString, secret)`, `now` being the reading of `time.Now()` inside the
library's validator. -/
def ValidateJWT (L : jwt.Lib) (now : models.Time) (tokenString secret : String) :
    Except Error Claims :=
  match jwt.ParseWithClaims L now tokenString (keyFunc secret) with
  | .error err => .error (.failedToParse err)
  | .ok token =>
    if token.Valid then .ok token.Claims
    else .error .invalidToken

/-- The identity of the tests in jwt_test.go. -/
def testUser : models.User :=
  ⟨"123", "test@example.com", "Test User", "", "google", ["user"], 0⟩

end utils

namespace config

/-- The struct `Config` of config.go. -/
structure Config where
  ServerPort : String
  OAuthProvider : String
  OAuthClientID : String
  OAuthClientSecret : String
  OAuthRedirectURL : String
  OAuthAuthURL : String
  OAuthTokenURL : String
  OAuthUserInfoURL : String
  OAuthScopes : List String
  JWTSecret : String
  JWTExpiration : Int
  EnableRBAC : Bool
  deriving DecidableEq, Repr

end config

/-! ## The identity normalizer of `auth/oauth.go`

The HTTP client and the JSON decoder are outside the repository: `GetUserInfo` takes the
outcome of `client.Get` and the decoder as arguments. -/

namespace auth

/-- A value of type `interface{}` as `encoding/json` decodes it. A number keeps its
literal; only its not being a string matters here. -/
inductive JSONValue
  | null
  | bool (b : Bool)
  | number (literal : String)
  | string (s : String)
  | array (items : List JSONValue)
  | object (fields : List (String × JSONValue))

/-- The decoded user-info object, `map[string]interface{}`, as an association list. -/
abbrev UserInfo := List (String × JSONValue)

/-- The outcome of `client.Get(url)`: a transport error, or a response with its status code
and body. -/
inductive GetResult
  | failed (err : String)
  | response (StatusCode : Nat) (Body : String)

/-- The struct `OAuthService` of oauth.go; its `oauthConfig` is built from `config` alone. -/
structure OAuthService where
  config : config.Config

/-- The function `getStringField(data, field)`. -/
def getStringField (data : UserInfo) (field : String) : String :=
  match data.lookup field with
  | some (.string str) => str
  | _ => ""

/-- The `switch s.config.OAuthProvider` of `GetUserInfo`. -/
def extractFields (provider : String) (userInfo : UserInfo) (user : models.User) :
    models.User :=
  if provider = "google" then
    { user with
      ID := getStringField userInfo "id"
      Email := getStringField userInfo "email"
      Name := getStringField userInfo "name"
      Picture := getStringField userInfo "picture" }
  else if provider = "okta" then
    { user with
      ID := getStringField userInfo "sub"
      Email := getStringField userInfo "email"
      Name := getStringField userInfo "name"
      Picture := getStringField userInfo "picture" }
  else if provider = "azure" then
    let user := { user with
      ID := getStringField userInfo "id"
      Email := getStringField userInfo "mail" }
    let user :=
      if user.Email = "" then { user with Email := getStringField userInfo "userPrincipalName" }
      else user
    { user with Name := getStringField userInfo "displayName" }
  else user

/-- The method `(s *OAuthService) GetUserInfo(ctx, token)`: `get` is the authenticated
client, `decode` the JSON decoder on the response body, `now` the reading of `time.Now()`. -/
def GetUserInfo (s : OAuthService) (now : models.Time) (get : String → GetResult)
    (decode : String → Except String UserInfo) : Except String models.User :=
  match get s.config.OAuthUserInfoURL with
  | .failed err => .error ("failed to get user info: " ++ err)
  | .response status body =>
    if status ≠ 200 then
      .error ("failed to get user info: status " ++ toString status ++ ", body: " ++ body)
    else
      match decode body with
      | .error err => .error ("failed to decode user info: " ++ err)
      | .ok userInfo =>
        let user : models.User :=
          { ID := "", Email := "", Name := "", Picture := "",
            Provider := s.config.OAuthProvider, Roles := [], Created := now }
        let user := extractFields s.config.OAuthProvider userInfo user
        let user :=
          if user.Roles.length = 0 then { user with Roles := [models.RoleUser] }
          else user
        .ok user

/-- A sample configuration for the provider tag `provider`, with the default values of
`LoadConfig`. -/
def sampleConfig (provider : String) : config.Config :=
  { ServerPort := "8080"
    OAuthProvider := provider
    OAuthClientID := "client-id"
    OAuthClientSecret := "client-secret"
    OAuthRedirectURL := "http://localhost:8080/auth/callback"
    OAuthAuthURL := "https://accounts.google.com/o/oauth2/v2/auth"
    OAuthTokenURL := "https://oauth2.googleapis.com/token"
    OAuthUserInfoURL := "https://www.googleapis.com/oauth2/v2/userinfo"
    OAuthScopes := ["openid", "profile", "email"]
    JWTSecret := "your-secret-key-change-in-production"
    JWTExpiration := 24
    EnableRBAC := true }

end auth

/-! ## Requests, responses and the request guard chain

A handler is a function from the request and from what has been done so far to what has been
done afterwards: the response written to the `http.ResponseWriter`, and the calls made to the
token codec and to the provider, in order. `net/http` and `golang.org/x/oauth2` are outside
the repository; the few operations the handlers use are written out below, and the provider
is an argument (`World`). -/

namespace oauth2

/-- The struct `oauth2.Token`, as far as it is used: the access token. -/
structure Token where
  AccessToken : String
  deriving DecidableEq, Repr

end oauth2

namespace http

/-- The fields of `http.Cookie` that the handlers set. -/
structure Cookie where
  Name : String
  Value : String
  Path : String
  MaxAge : Int
  deriving DecidableEq, Repr

/-- A value handed to `json.NewEncoder(w).Encode`. -/
inductive Value
  | string (s : String)
  | user (u : models.User)
  | object (fields : List (String × Value))

/-- One write to the response body: a line of text (`fmt.Fprintln`) or the JSON encoding of
a value. -/
inductive Chunk
  | text (s : String)
  | json (v : Value)

/-- A call from a handler into the token codec or the OAuth service. -/
inductive Call
  | ValidateJWT (tokenString secret : String)
  | ExchangeCode (code : String)
  | GetUserInfo (token : oauth2.Token)
  | GenerateJWT (user : models.User) (secret : String) (expirationHours : Int)

/-- An incoming request: its header fields, its cookies as parsed from the `Cookie` header,
the parameters of its URL query, and the value its context holds under `UserContextKey`. -/
structure Request where
  Header : List (String × String)
  Cookies : List (String × String)
  Query : List (String × String)
  ctxUser : Option models.User

/-- `r.Header.Get(key)`: the value of the field, the empty string when it is absent. -/
def Request.HeaderGet (r : Request) (key : String) : String :=
  (r.Header.lookup key).getD ""

/-- `r.Cookie(name)`: the value of the first cookie of that name, `none` for
`http.ErrNoCookie`. -/
def Request.Cookie (r : Request) (name : String) : Option String :=
  r.Cookies.lookup name

/-- `r.URL.Query().Get(key)`: the first value of the parameter, the empty string when it is
absent. -/
def Request.QueryGet (r : Request) (key : String) : String :=
  (r.Query.lookup key).getD ""

/-- What has been done while serving a request: the header map, the cookies added by
`http.SetCookie`, the status once the header is written, the body, and the calls made. -/
structure ResponseWriter where
  Header : List (String × String)
  SetCookies : List Cookie
  Status : Option Nat
  Body : List Chunk
  calls : List Call

/-- The response writer a handler starts from: nothing written, nothing called. -/
def ResponseWriter.fresh : ResponseWriter :=
  { Header := [], SetCookies := [], Status := none, Body := [], calls := [] }

/-- `w.Header().Set(key, value)`; it has no effect on a header already written. -/
def ResponseWriter.SetHeader (w : ResponseWriter) (key value : String) : ResponseWriter :=
  match w.Status with
  | some _ => w
  | none => { w with Header := (key, value) :: w.Header.filter (fun kv => kv.1 ≠ key) }

/-- `http.SetCookie(w, cookie)`: one more `Set-Cookie` line, unless the header is already
written. -/
def SetCookie (w : ResponseWriter) (cookie : Cookie) : ResponseWriter :=
  match w.Status with
  | some _ => w
  | none => { w with SetCookies := w.SetCookies ++ [cookie] }

/-- `w.WriteHeader(code)`: the first call fixes the status. -/
def ResponseWriter.WriteHeader (w : ResponseWriter) (code : Nat) : ResponseWriter :=
  match w.Status with
  | some _ => w
  | none => { w with Status := some code }

/-- `w.Write`: the header is written with status 200 if it was not yet, then the body
grows. -/
def ResponseWriter.Write (w : ResponseWriter) (chunk : Chunk) : ResponseWriter :=
  let w := w.WriteHeader 200
  { w with Body := w.Body ++ [chunk] }

/-- `json.NewEncoder(w).Encode(v)`. -/
def ResponseWriter.Encode (w : ResponseWriter) (v : Value) : ResponseWriter :=
  w.Write (.json v)

/-- The record of a call. -/
def ResponseWriter.called (w : ResponseWriter) (c : Call) : ResponseWriter :=
  { w with calls := w.calls ++ [c] }

/-- `http.Error(w, error, code)`: plain-text content type, the status, the message. -/
def Error (w : ResponseWriter) (error : String) (code : Nat) : ResponseWriter :=
  let w := w.SetHeader "Content-Type" "text/plain; charset=utf-8"
  let w := w.SetHeader "X-Content-Type-Options" "nosniff"
  let w := w.WriteHeader code
  w.Write (.text error)

/-- `http.Handler`. -/
abbrev Handler := Request → ResponseWriter → ResponseWriter

/-- What lies outside the process and outside the repository: the primitives of the token
library, the text of an error value (`err.Error()`), the provider (code exchange, user-info
endpoint, JSON decoder) and the readings of the clock. -/
structure World where
  L : jwt.Lib
  errorText : utils.Error → String
  validateNow : models.Time
  exchange : String → Except String oauth2.Token
  client : oauth2.Token → String → auth.GetResult
  decode : String → Except String auth.UserInfo
  userInfoNow : models.Time
  issueNow1 : models.Time
  issueNow2 : models.Time
  issueNow3 : models.Time

end http

namespace auth

/-- The method `(s *OAuthService) ExchangeCode(ctx, code)`, `exchange` being
`oauthConfig.Exchange`. -/
def ExchangeCode (exchange : String → Except String oauth2.Token) (code : String) :
    Except String oauth2.Token :=
  match exchange code with
  | .error err => .error ("failed to exchange code: " ++ err)
  | .ok token => .ok token

end auth

namespace middleware

open http

/-- The function `GetUserFromContext(ctx)`. -/
def GetUserFromContext (r : Request) : Option models.User :=
  r.ctxUser

/-- `AuthMiddleware(cfg)(next)`. The fields `Picture` and `Created`, which the literal
`&models.User{...}` leaves out, keep their zero values (the empty string; the zero time,
written 0). -/
def AuthMiddleware (W : World) (cfg : config.Config) (next : Handler) : Handler :=
  fun r w =>
    let authHeader := r.HeaderGet "Authorization"
    if authHeader = "" then
      http.Error w "Authorization header required" 401
    else
      let parts := jwt.stringsSplit authHeader ' '
      if parts.length ≠ 2 ∨ parts.getD 0 "" ≠ "Bearer" then
        http.Error w "Invalid authorization header format" 401
      else
        let tokenString := parts.getD 1 ""
        let w := w.called (.ValidateJWT tokenString cfg.JWTSecret)
        match utils.ValidateJWT W.L W.validateNow tokenString cfg.JWTSecret with
        | .error err => http.Error w ("Invalid token: " ++ W.errorText err) 401
        | .ok claims =>
          let user : models.User :=
            { ID := claims.UserID
              Email := claims.Email
              Name := claims.Name
              Roles := claims.Roles
              Provider := claims.Provider
              Picture := ""
              Created := 0 }
          next { r with ctxUser := some user } w

/-- The loop of `RequireRole` over the required roles, with its `break`. -/
def hasAnyRole (user : models.User) : List String → Bool
  | [] => false
  | requiredRole :: rest =>
    if user.HasRole requiredRole then true else hasAnyRole user rest

/-- `RequireRole(roles...)(next)`. -/
def RequireRole (roles : List String) (next : Handler) : Handler :=
  fun r w =>
    match GetUserFromContext r with
    | none => http.Error w "Unauthorized" 401
    | some user =>
      let hasRole := hasAnyRole user roles
      if !hasRole then
        let w := w.SetHeader "Content-Type" "application/json"
        let w := w.WriteHeader 403
        w.Encode (.object [("error", .string "Insufficient permissions")])
      else next r w

/-- `RequirePermission(resource, action)(next)`. -/
def RequirePermission (resource action : String) (next : Handler) : Handler :=
  fun r w =>
    match GetUserFromContext r with
    | none => http.Error w "Unauthorized" 401
    | some user =>
      if !user.HasPermission resource action then
        let w := w.SetHeader "Content-Type" "application/json"
        let w := w.WriteHeader 403
        w.Encode (.object [("error", .string "Insufficient permissions"),
          ("resource", .string resource), ("action", .string action)])
      else next r w

end middleware

namespace handlers

open http

/-- The struct `AuthHandler` of handlers/auth.go. -/
structure AuthHandler where
  config : config.Config
  oauthService : auth.OAuthService

/-- The cookie with which `Callback` clears the state cookie. -/
def clearedStateCookie : Cookie :=
  { Name := "oauth_state", Value := "", Path := "/", MaxAge := -1 }

/-- The method `(h *AuthHandler) Callback(w, r)`. -/
def Callback (h : AuthHandler) (W : World) : Handler :=
  fun r w =>
    match r.Cookie "oauth_state" with
    | none => http.Error w "State cookie not found" 400
    | some stateCookie =>
      let state := r.QueryGet "state"
      if state ≠ stateCookie then
        http.Error w "Invalid state parameter" 400
      else
        let w := SetCookie w clearedStateCookie
        let code := r.QueryGet "code"
        if code = "" then
          http.Error w "Authorization code not found" 400
        else
          let w := w.called (.ExchangeCode code)
          match auth.ExchangeCode W.exchange code with
          | .error err => http.Error w ("Failed to exchange code: " ++ err) 500
          | .ok token =>
            let w := w.called (.GetUserInfo token)
            match auth.GetUserInfo h.oauthService W.userInfoNow (W.client token) W.decode with
            | .error err => http.Error w ("Failed to get user info: " ++ err) 500
            | .ok user =>
              let w := w.called
                (.GenerateJWT user h.config.JWTSecret h.config.JWTExpiration)
              match utils.GenerateJWT W.L W.issueNow1 W.issueNow2 W.issueNow3 user
                  h.config.JWTSecret h.config.JWTExpiration with
              | .error err =>
                http.Error w ("Failed to generate JWT: " ++ W.errorText err) 500
              | .ok jwtToken =>
                let w := w.SetHeader "Content-Type" "application/json"
                w.Encode (.object [("token", .string jwtToken), ("user", .user user)])

end handlers

/-! ### Sample surroundings

Concrete surroundings on which the statements about the handlers are applied. -/

namespace sample

open http

/-- A provider that accepts the one code `good-code`, with the plain-text token primitives. -/
def world : World :=
  { L := plain.lib
    errorText := fun _ => "error"
    validateNow := 5000000003
    exchange := fun code => if code = "good-code" then .ok ⟨"access-token"⟩
      else .error "invalid_grant"
    client := fun _ _ => .response 200 ""
    decode := fun _ => .ok [("id", .string "42"), ("email", .string "a@example.com")]
    userInfoNow := 5000000000
    issueNow1 := 5000000000
    issueNow2 := 5000000001
    issueNow3 := 5000000002 }

/-- A protected handler that writes one line. -/
def next : Handler := fun _ w => w.Write (.text "protected")

/-- A request with the given `Authorization` header and nothing else. -/
def requestWithAuthorization (authHeader : String) : Request :=
  { Header := [("Authorization", authHeader)], Cookies := [], Query := [], ctxUser := none }

/-- A request that carries an identity in its context, as `AuthMiddleware` leaves it. -/
def requestOf (user : models.User) : Request :=
  { Header := [], Cookies := [], Query := [], ctxUser := some user }

/-- A callback request with the given cookies and query parameters. -/
def callbackRequest (cookies query : List (String × String)) : Request :=
  { Header := [], Cookies := cookies, Query := query, ctxUser := none }

/-- The handler of the callback route, for google. -/
def authHandler : handlers.AuthHandler :=
  { config := auth.sampleConfig "google", oauthService := ⟨auth.sampleConfig "google"⟩ }

end sample

namespace models

theorem permLoop_iff (resource action : String) (perms : List Permission) :
    permLoop resource action perms = true ↔ ∃ p ∈ perms, Grants p resource action := by
  induction perms with
  | nil => simp [permLoop]
  | cons perm rest ih =>
    unfold permLoop
    by_cases h1 : perm.Resource = "*" ∧ perm.Action = "*"
    · simp only [h1, and_self, if_true, true_iff]
      exact ⟨perm, List.mem_cons_self _ _, Or.inl h1⟩
    · by_cases h2 : perm.Resource = resource ∧ perm.Action = "*"
      · rw [if_neg h1, if_pos h2]
        simp only [true_iff]
        exact ⟨perm, List.mem_cons_self _ _, Or.inr (Or.inl h2)⟩
      · by_cases h3 : perm.Resource = resource ∧ perm.Action = action
        · rw [if_neg h1, if_neg h2, if_pos h3]
          simp only [true_iff]
          exact ⟨perm, List.mem_cons_self _ _, Or.inr (Or.inr h3)⟩
        · rw [if_neg h1, if_neg h2, if_neg h3, ih]
          constructor
          · rintro ⟨p, hp, hg⟩
            exact ⟨p, List.mem_cons_of_mem _ hp, hg⟩
          · rintro ⟨p, hp, hg⟩
            rcases List.mem_cons.mp hp with rfl | hp
            · rcases hg with hg | hg | hg
              · exact absurd hg h1
              · exact absurd hg h2
              · exact absurd hg h3
            · exact ⟨p, hp, hg⟩

theorem roleLoop_iff (resource action : String) (roles : List String) :
    roleLoop resource action roles = true ↔
      ∃ role ∈ roles, ∃ perms, RolePermissions.lookup role = some perms ∧
        ∃ p ∈ perms, Grants p resource action := by
  induction roles with
  | nil => simp [roleLoop]
  | cons roleName rest ih =>
    cases hl : RolePermissions.lookup roleName with
    | none =>
      have hstep : roleLoop resource action (roleName :: rest)
          = roleLoop resource action rest := by simp only [roleLoop, hl]
      rw [hstep, ih]
      constructor
      · rintro ⟨role, hr, h⟩
        exact ⟨role, List.mem_cons_of_mem _ hr, h⟩
      · rintro ⟨role, hr, perms, hp, h⟩
        rcases List.mem_cons.mp hr with rfl | hr
        · rw [hl] at hp
          cases hp
        · exact ⟨role, hr, perms, hp, h⟩
    | some permissions =>
      cases hperm : permLoop resource action permissions with
      | true =>
        have hstep : roleLoop resource action (roleName :: rest) = true := by
          simp only [roleLoop, hl, hperm, if_true]
        rw [hstep]
        simp only [true_iff]
        exact ⟨roleName, List.mem_cons_self _ _, permissions, hl, (permLoop_iff _ _ _).mp hperm⟩
      | false =>
        have hstep : roleLoop resource action (roleName :: rest)
            = roleLoop resource action rest := by
          simp only [roleLoop, hl, hperm]
          simp
        rw [hstep, ih]
        constructor
        · rintro ⟨role, hr, h⟩
          exact ⟨role, List.mem_cons_of_mem _ hr, h⟩
        · rintro ⟨role, hr, perms, hp, h⟩
          rcases List.mem_cons.mp hr with rfl | hr
          · rw [hl] at hp
            cases hp
            rw [(permLoop_iff _ _ _).mpr h] at hperm
            cases hperm
          · exact ⟨role, hr, perms, hp, h⟩

theorem hasRoleLoop_iff (role : String) (roles : List String) :
    hasRoleLoop role roles = true ↔ role ∈ roles := by
  induction roles with
  | nil => simp [hasRoleLoop]
  | cons r rest ih =>
    unfold hasRoleLoop
    by_cases h : r = role
    · simp [h]
    · rw [if_neg h, ih]
      constructor
      · intro hm
        exact List.mem_cons_of_mem _ hm
      · intro hm
        rcases List.mem_cons.mp hm with rfl | hm
        · exact absurd rfl h
        · exact hm

end models

namespace models

theorem lookup_admin : RolePermissions.lookup "admin" = some [⟨"*", "*"⟩] := by
  decide

theorem lookup_user : RolePermissions.lookup "user" =
    some [⟨"profile", "read"⟩, ⟨"profile", "update"⟩, ⟨"data", "read"⟩, ⟨"data", "create"⟩] := by
  decide

/-- C1: `HasPermission(resource, action)` is true exactly when some role of the identity is a
key of `RolePermissions` whose permission list holds a permission `p` with `(*,*)`, or with
`(resource,*)`, or with `(resource,action)`; otherwise it is false. -/
theorem HasPermission_iff_table (u : User) (resource action : String) :
    (u.HasPermission resource action = true ↔
      ∃ role ∈ u.Roles, ∃ perms, RolePermissions.lookup role = some perms ∧
        ∃ p ∈ perms, (p.Resource = "*" ∧ p.Action = "*") ∨
          (p.Resource = resource ∧ p.Action = "*") ∨
          (p.Resource = resource ∧ p.Action = action)) ∧
    (u.HasPermission resource action = false ↔
      ¬ ∃ role ∈ u.Roles, ∃ perms, RolePermissions.lookup role = some perms ∧
        ∃ p ∈ perms, (p.Resource = "*" ∧ p.Action = "*") ∨
          (p.Resource = resource ∧ p.Action = "*") ∨
          (p.Resource = resource ∧ p.Action = action)) := by
  have h := roleLoop_iff resource action u.Roles
  unfold Grants at h
  refine ⟨h, ?_⟩
  unfold User.HasPermission
  rw [← h]
  simp

/-- C2: `HasRole(r)` is true exactly when `r` is an element of the role list, by string
equality and with no hierarchy: with roles `["admin","user"]` the roles "admin" and "user"
are held and "viewer" and "superuser" are not, and an identity holding only "admin" does
not hold "user". -/
theorem HasRole_iff_mem (u : User) (r : String) :
    (u.HasRole r = true ↔ r ∈ u.Roles) ∧
    (u.Roles = ["admin", "user"] →
      u.HasRole "admin" = true ∧ u.HasRole "user" = true ∧
      u.HasRole "viewer" = false ∧ u.HasRole "superuser" = false) ∧
    (u.Roles = ["admin"] → u.HasRole "user" = false) := by
  refine ⟨hasRoleLoop_iff r u.Roles, ?_, ?_⟩
  · intro h
    unfold User.HasRole
    rw [h]
    decide
  · intro h
    unfold User.HasRole
    rw [h]
    decide

/-- C6: an identity whose role list contains "admin" has every permission, whatever its
other roles and whatever the resource and action. -/
theorem admin_HasPermission_all (u : User) (resource action : String)
    (h : "admin" ∈ u.Roles) : u.HasPermission resource action = true := by
  unfold User.HasPermission
  rw [roleLoop_iff]
  exact ⟨"admin", h, _, lookup_admin, ⟨"*", "*"⟩, List.mem_singleton.mpr rfl,
    Or.inl ⟨rfl, rfl⟩⟩

theorem admin_HasPermission_all_witness :
    "admin" ∈ (User.mk "1" "" "" "" "" ["viewer", "admin"] 0).Roles ∧
    (User.mk "1" "" "" "" "" ["viewer", "admin"] 0).HasPermission
      "any-resource" "any-action" = true :=
  ⟨by decide, admin_HasPermission_all _ "any-resource" "any-action" (by decide)⟩

/-- C7: an identity whose role list is exactly `["user"]` has permission `(resource, action)`
exactly for (profile, read), (profile, update), (data, read), (data, create); so it may
create data and may not delete data. -/
theorem user_role_permissions (u : User) (resource action : String)
    (h : u.Roles = ["user"]) :
    (u.HasPermission resource action = true ↔
      (resource = "profile" ∧ action = "read") ∨ (resource = "profile" ∧ action = "update") ∨
      (resource = "data" ∧ action = "read") ∨ (resource = "data" ∧ action = "create")) ∧
    u.HasPermission "data" "create" = true ∧ u.HasPermission "data" "delete" = false := by
  unfold User.HasPermission
  rw [h]
  refine ⟨?_, by decide, by decide⟩
  have hstep : roleLoop resource action ["user"] = permLoop resource action
      [⟨"profile", "read"⟩, ⟨"profile", "update"⟩, ⟨"data", "read"⟩, ⟨"data", "create"⟩] := by
    simp only [roleLoop, lookup_user]
    cases permLoop resource action
      [⟨"profile", "read"⟩, ⟨"profile", "update"⟩, ⟨"data", "read"⟩, ⟨"data", "create"⟩] <;> simp
  rw [hstep, permLoop_iff]
  simp only [Grants, List.mem_cons, List.mem_singleton, List.not_mem_nil, or_false]
  constructor
  · rintro ⟨p, hp, hg⟩
    rcases hp with rfl | rfl | rfl | rfl <;> simp at hg <;> simp [← hg.1, ← hg.2]
  · intro hg
    rcases hg with ⟨rfl, rfl⟩ | ⟨rfl, rfl⟩ | ⟨rfl, rfl⟩ | ⟨rfl, rfl⟩
    · exact ⟨⟨"profile", "read"⟩, Or.inl rfl, Or.inr (Or.inr ⟨rfl, rfl⟩)⟩
    · exact ⟨⟨"profile", "update"⟩, Or.inr (Or.inl rfl), Or.inr (Or.inr ⟨rfl, rfl⟩)⟩
    · exact ⟨⟨"data", "read"⟩, Or.inr (Or.inr (Or.inl rfl)), Or.inr (Or.inr ⟨rfl, rfl⟩)⟩
    · exact ⟨⟨"data", "create"⟩, Or.inr (Or.inr (Or.inr rfl)), Or.inr (Or.inr ⟨rfl, rfl⟩)⟩

theorem user_role_permissions_witness :
    (User.mk "3" "" "" "" "" ["user"] 0).Roles = ["user"] ∧
    ((User.mk "3" "" "" "" "" ["user"] 0).HasPermission "profile" "update" = true ↔
      ("profile" = "profile" ∧ "update" = "read") ∨
      ("profile" = "profile" ∧ "update" = "update") ∨
      ("profile" = "data" ∧ "update" = "read") ∨ ("profile" = "data" ∧ "update" = "create")) :=
  ⟨rfl, (user_role_permissions _ "profile" "update" rfl).1⟩

/-- C8: an identity none of whose roles is a key of `RolePermissions` (so also one with no
roles at all) has no permission, whatever the resource and action. -/
theorem no_table_role_no_permission (u : User) (resource action : String)
    (h : ∀ role ∈ u.Roles, RolePermissions.lookup role = none) :
    u.HasPermission resource action = false := by
  cases hp : u.HasPermission resource action with
  | false => rfl
  | true =>
    unfold User.HasPermission at hp
    rw [roleLoop_iff] at hp
    obtain ⟨role, hr, perms, hl, _⟩ := hp
    rw [h role hr] at hl
    cases hl

theorem no_table_role_no_permission_witness :
    (∀ role ∈ (User.mk "7" "" "" "" "" [] 0).Roles, RolePermissions.lookup role = none) ∧
    (∀ role ∈ (User.mk "8" "" "" "" "" ["guest", "Admin"] 0).Roles,
      RolePermissions.lookup role = none) ∧
    (User.mk "7" "" "" "" "" [] 0).HasPermission "data" "read" = false ∧
    (User.mk "8" "" "" "" "" ["guest", "Admin"] 0).HasPermission "data" "read" = false :=
  ⟨by decide, by decide,
    no_table_role_no_permission _ "data" "read" (by decide),
    no_table_role_no_permission _ "data" "read" (by decide)⟩

/-- C9: two identities whose role lists hold the same set of role names, in any order and
with any multiplicity, get the same answer from `HasPermission` for every resource and
action, and the same answer from `HasRole` for every role. -/
theorem permission_check_order_independent (u v : User)
    (h : ∀ r, r ∈ u.Roles ↔ r ∈ v.Roles) (resource action role : String) :
    u.HasPermission resource action = v.HasPermission resource action ∧
    u.HasRole role = v.HasRole role := by
  constructor
  · apply Bool.eq_iff_iff.mpr
    unfold User.HasPermission
    rw [roleLoop_iff, roleLoop_iff]
    constructor
    · rintro ⟨r, hr, rest⟩
      exact ⟨r, (h r).mp hr, rest⟩
    · rintro ⟨r, hr, rest⟩
      exact ⟨r, (h r).mpr hr, rest⟩
  · apply Bool.eq_iff_iff.mpr
    unfold User.HasRole
    rw [hasRoleLoop_iff, hasRoleLoop_iff]
    exact h role

theorem permission_check_order_independent_witness :
    (∀ r, r ∈ (User.mk "a" "" "" "" "" ["viewer", "user"] 0).Roles ↔
      r ∈ (User.mk "b" "" "" "" "" ["user", "viewer", "user"] 0).Roles) ∧
    (User.mk "a" "" "" "" "" ["viewer", "user"] 0).HasPermission "data" "create" =
      (User.mk "b" "" "" "" "" ["user", "viewer", "user"] 0).HasPermission "data" "create" ∧
    (User.mk "a" "" "" "" "" ["viewer", "user"] 0).HasRole "user" =
      (User.mk "b" "" "" "" "" ["user", "viewer", "user"] 0).HasRole "user" :=
  have hset : ∀ r, r ∈ (User.mk "a" "" "" "" "" ["viewer", "user"] 0).Roles ↔
      r ∈ (User.mk "b" "" "" "" "" ["user", "viewer", "user"] 0).Roles := by
    intro r
    simp only [List.mem_cons, List.mem_singleton, List.not_mem_nil, or_false]
    tauto
  ⟨hset, permission_check_order_independent _ _ hset "data" "create" "user"⟩

end models

namespace jwt

theorem splitChars_ne_nil (sep : Char) (cs : List Char) : splitChars sep cs ≠ [] := by
  cases cs with
  | nil => simp [splitChars]
  | cons c cs =>
    unfold splitChars
    by_cases h : c = sep
    · simp [h]
    · rw [if_neg h]
      cases splitChars sep cs <;> simp

theorem splitChars_of_not_mem (sep : Char) (a : List Char) (h : sep ∉ a) :
    splitChars sep a = [a] := by
  induction a with
  | nil => rfl
  | cons c cs ih =>
    have hc : c ≠ sep := fun e => h (e ▸ List.mem_cons_self _ _)
    have hcs : sep ∉ cs := fun m => h (List.mem_cons_of_mem _ m)
    unfold splitChars
    rw [if_neg hc, ih hcs]

theorem splitChars_cons_ne (sep c : Char) (cs : List Char) (h : c ≠ sep) :
    splitChars sep (c :: cs) =
      match splitChars sep cs with
      | [] => [[c]]
      | p :: ps => (c :: p) :: ps := by
  simp [splitChars, h]

theorem splitChars_append (sep : Char) (a rest : List Char) (h : sep ∉ a) :
    splitChars sep (a ++ sep :: rest) = a :: splitChars sep rest := by
  induction a with
  | nil => simp [splitChars]
  | cons c cs ih =>
    have hc : c ≠ sep := fun e => h (e ▸ List.mem_cons_self _ _)
    have hcs : sep ∉ cs := fun m => h (List.mem_cons_of_mem _ m)
    rw [List.cons_append, splitChars_cons_ne _ _ _ hc, ih hcs]

/-- Three dot-free segments joined by dots are split back into themselves. -/
theorem stringsSplit_three (h c s : String) (hh : '.' ∉ h.toList) (hc : '.' ∉ c.toList)
    (hs : '.' ∉ s.toList) :
    stringsSplit (h ++ "." ++ c ++ "." ++ s) '.' = [h, c, s] := by
  have hl : (h ++ "." ++ c ++ "." ++ s).toList
      = h.toList ++ '.' :: (c.toList ++ '.' :: s.toList) := by
    simp [String.toList, String.data_append]
  unfold stringsSplit
  rw [hl, splitChars_append _ _ _ hh, splitChars_append _ _ _ hc, splitChars_of_not_mem _ _ hs]
  rfl

theorem GetSigningMethod_HS256 : GetSigningMethod "HS256" = some (.HMAC .SHA256) := by
  decide

end jwt

namespace utils

/-- What `ValidateJWT` answers on a token `SignedStringHS256` issued for `claims` under the
key of `S1`, when the codecs are faithful on the token: the signature is compared with the
tag under the key of `S2`, then the claims are validated. -/
theorem ValidateJWT_issued (L : jwt.Lib) (now : models.Time) (claims : Claims)
    (S1 S2 : String)
    (hL : jwt.FaithfulOn L jwt.headerHS256 claims (jwt.signatureHS256 L claims (jwt.bytesOf S1))) :
    ValidateJWT L now
        (jwt.SigningString L jwt.headerHS256 claims ++ "." ++
          L.encodeSignature (jwt.signatureHS256 L claims (jwt.bytesOf S1))) S2 =
      if jwt.signatureHS256 L claims (jwt.bytesOf S1)
          = jwt.signatureHS256 L claims (jwt.bytesOf S2) then
        match jwt.validateClaims now claims with
        | .error e => .error (.failedToParse e)
        | .ok _ => .ok claims
      else .error (.failedToParse .ErrTokenSignatureInvalid) := by
  have hsplit := jwt.stringsSplit_three _ _ _ hL.header_nodot hL.claims_nodot hL.sig_nodot
  have halg : jwt.headerHS256.alg = some "HS256" := rfl
  have hsstr : jwt.signatureHS256 L claims (jwt.bytesOf S2)
      = jwt.hmacSign L .SHA256 (L.encodeHeader jwt.headerHS256 ++ "." ++ L.encodeClaims claims)
          (jwt.bytesOf S2) := rfl
  unfold ValidateJWT jwt.ParseWithClaims
  unfold jwt.SigningString
  rw [hsplit]
  simp only [hL.header_eq, hL.claims_eq, hL.sig_eq, halg, jwt.GetSigningMethod_HS256, keyFunc,
    jwt.Verify, ← hsstr]
  by_cases hsig : jwt.signatureHS256 L claims (jwt.bytesOf S1)
      = jwt.signatureHS256 L claims (jwt.bytesOf S2)
  · simp only [if_pos hsig]
    cases jwt.validateClaims now claims <;> simp
  · simp only [if_neg hsig]

end utils

namespace utils

theorem mulInt64_timeHour (ttl : Int) (hpos : 0 < ttl) (hmax : ttl ≤ 2562047) :
    mulInt64 timeHour ttl = timeHour * ttl := by
  unfold mulInt64 timeHour
  have h : (3600000000000 * ttl + 2 ^ 63) % 2 ^ 64 = 3600000000000 * ttl + 2 ^ 63 := by
    apply Int.emod_eq_of_lt
    · omega
    · omega
  rw [h]
  omega

theorem validateClaims_newClaims (now1 now2 now3 now : Int) (I : models.User)
    (ttl : Int) (hpos : 0 < ttl) (hmax : ttl ≤ 2562047) (hnbf : now3 ≤ now)
    (hexp : now < jwt.NumericDate.time ((now1 + timeHour * ttl) / 1000000000)) :
    jwt.validateClaims now (newClaims now1 now2 now3 I ttl) = .ok () := by
  have hnbf2 : jwt.NumericDate.time (now3 / 1000000000) ≤ now := by
    show (now3 / 1000000000 * 1000000000 : Int) ≤ now
    omega
  simp [jwt.validateClaims, newClaims, jwt.NewNumericDate, mulInt64_timeHour ttl hpos hmax,
    hexp, hnbf2]

theorem GenerateJWT_eq (L : jwt.Lib) (now1 now2 now3 : Int) (I : models.User)
    (S : String) (ttl : Int) :
    GenerateJWT L now1 now2 now3 I S ttl =
      .ok (jwt.SigningString L jwt.headerHS256 (newClaims now1 now2 now3 I ttl) ++ "." ++
        L.encodeSignature
          (jwt.signatureHS256 L (newClaims now1 now2 now3 I ttl) (jwt.bytesOf S))) := rfl

/-- C3, amended: for every identity `I` with string fields of valid UTF-8, every secret `S`
and every `ttl` with `0 < ttl ≤ 2562047` (the hours whose nanoseconds fit an `int64`), on
condition that the segment codecs of the library decode the header, the claims and the
signature of the issued token to what they encoded, with no dot in a segment (`hL`):
`GenerateJWT(I, S, ttl)` returns a token, `ValidateJWT` accepts it under `S` at every instant
from the last clock reading of the issue up to its expiry (first reading plus `ttl` hours, in
whole seconds), and the returned claims carry the fields of `I`. The condition on the codecs
is what `encoding/json` gives on valid UTF-8; it replaces an invalid byte by U+FFFD, and a
string with such a byte is no `String`. -/
theorem GenerateJWT_ValidateJWT_roundtrip (L : jwt.Lib) (now1 now2 now3 now : Int)
    (I : models.User) (S : String) (ttl : Int)
    (hL : jwt.FaithfulOn L jwt.headerHS256 (newClaims now1 now2 now3 I ttl)
      (jwt.signatureHS256 L (newClaims now1 now2 now3 I ttl) (jwt.bytesOf S)))
    (hpos : 0 < ttl) (hmax : ttl ≤ 2562047) (hnbf : now3 ≤ now)
    (hexp : now < jwt.NumericDate.time ((now1 + timeHour * ttl) / 1000000000)) :
    ∃ tokenString claims,
      GenerateJWT L now1 now2 now3 I S ttl = .ok tokenString ∧
      ValidateJWT L now tokenString S = .ok claims ∧
      claims.UserID = I.ID ∧ claims.Email = I.Email ∧ claims.Name = I.Name ∧
      claims.Roles = I.Roles ∧ claims.Provider = I.Provider := by
  refine ⟨_, newClaims now1 now2 now3 I ttl, GenerateJWT_eq L now1 now2 now3 I S ttl, ?_,
    rfl, rfl, rfl, rfl, rfl⟩
  rw [ValidateJWT_issued L now _ S S hL, if_pos rfl,
    validateClaims_newClaims now1 now2 now3 now I ttl hpos hmax hnbf hexp]

set_option maxRecDepth 100000 in
theorem GenerateJWT_ValidateJWT_roundtrip_witness :
    ∃ tokenString claims,
      GenerateJWT plain.lib 5000000000 5000000001 5000000002 testUser "test-secret-key" 24
        = .ok tokenString ∧
      ValidateJWT plain.lib 5000000003 tokenString "test-secret-key" = .ok claims ∧
      claims.UserID = testUser.ID ∧ claims.Email = testUser.Email ∧
      claims.Name = testUser.Name ∧ claims.Roles = testUser.Roles ∧
      claims.Provider = testUser.Provider :=
  GenerateJWT_ValidateJWT_roundtrip plain.lib 5000000000 5000000001 5000000002 5000000003
    testUser "test-secret-key" 24
    ⟨by decide, by decide, by decide, by decide, by decide, by decide⟩
    (by decide) (by decide) (by decide) (by decide)

set_option maxRecDepth 100000 in
/-- C3 fails as stated, at `ttl = 2562048`: `time.Hour * time.Duration(2562048)` wraps to a
negative duration, the token carries an expiry some 292 years before its issue, and
`ValidateJWT` answers that the token is expired, for every hash function and every codec
faithful on the token (the plain-text instance is one). -/
theorem roundtrip_fails_at_ttl_2562048 :
    (0 : Int) < 2562048 ∧
    mulInt64 timeHour 2562048 = -9223371273709551616 ∧
    jwt.FaithfulOn plain.lib jwt.headerHS256
      (newClaims 1700000000000000000 1700000000000000000 1700000000000000000 testUser 2562048)
      (jwt.signatureHS256 plain.lib
        (newClaims 1700000000000000000 1700000000000000000 1700000000000000000 testUser 2562048)
        (jwt.bytesOf "test-secret-key")) ∧
    ∀ L : jwt.Lib,
      jwt.FaithfulOn L jwt.headerHS256
        (newClaims 1700000000000000000 1700000000000000000 1700000000000000000 testUser 2562048)
        (jwt.signatureHS256 L
          (newClaims 1700000000000000000 1700000000000000000 1700000000000000000 testUser
            2562048)
          (jwt.bytesOf "test-secret-key")) →
      ∃ tokenString,
        GenerateJWT L 1700000000000000000 1700000000000000000 1700000000000000000 testUser
          "test-secret-key" 2562048 = .ok tokenString ∧
        ValidateJWT L 1700000000000000000 tokenString "test-secret-key"
          = .error (.failedToParse .ErrTokenExpired) := by
  refine ⟨by decide, by decide,
    ⟨by decide, by decide, by decide, by decide, by decide, by decide⟩, ?_⟩
  intro L hL
  refine ⟨_, GenerateJWT_eq L _ _ _ _ _ _, ?_⟩
  rw [ValidateJWT_issued L _ _ _ _ hL, if_pos rfl]
  have hv : jwt.validateClaims 1700000000000000000
      (newClaims 1700000000000000000 1700000000000000000 1700000000000000000 testUser 2562048)
      = .error .ErrTokenExpired := by
    rfl
  rw [hv]

end utils

namespace jwt

end jwt

namespace utils

end utils

namespace jwt

theorem GetSigningMethod_HMAC (alg : String) (h : HashAlg)
    (hm : GetSigningMethod alg = some (.HMAC h)) :
    alg = "HS256" ∨ alg = "HS384" ∨ alg = "HS512" := by
  unfold GetSigningMethod signingMethods at hm
  by_cases h1 : alg = "HS256"
  · exact Or.inl h1
  · by_cases h2 : alg = "HS384"
    · exact Or.inr (Or.inl h2)
    · by_cases h3 : alg = "HS512"
      · exact Or.inr (Or.inr h3)
      · exfalso
        simp only [List.lookup] at hm
        repeat' split at hm
        all_goals simp_all

end jwt

namespace utils

/-- C5: a token string whose header declares a signing method outside the HMAC family
(any `alg` other than HS256, HS384, HS512: RS256, ES256, none, ...) is answered with
an error by `ValidateJWT`, for every secret and at every instant; and whenever the declared
method is a registered one, the key callback answers with an error instead of the secret. -/
theorem ValidateJWT_rejects_non_HMAC (L : jwt.Lib) (now : Int)
    (tokenString secret p0 : String) (rest : List String) (header : jwt.Header) (alg : String)
    (hparts : jwt.stringsSplit tokenString '.' = p0 :: rest)
    (hheader : L.decodeHeader p0 = some header)
    (halg : header.alg = some alg)
    (hfam : alg ≠ "HS256" ∧ alg ≠ "HS384" ∧ alg ≠ "HS512") :
    (∃ err, ValidateJWT L now tokenString secret = .error err) ∧
    (∀ token : jwt.Token, jwt.GetSigningMethod alg = some token.Method →
      ∃ err, keyFunc secret token = .error err) := by
  have hnot : ∀ m, jwt.GetSigningMethod alg = some m → ∀ h, m ≠ .HMAC h := by
    intro m hm h e
    rw [e] at hm
    rcases jwt.GetSigningMethod_HMAC alg h hm with h1 | h1 | h1
    · exact hfam.1 h1
    · exact hfam.2.1 h1
    · exact hfam.2.2 h1
  have hkey : ∀ token : jwt.Token, jwt.GetSigningMethod alg = some token.Method →
      ∃ err, keyFunc secret token = .error err := by
    intro token hm
    have hne := hnot _ hm
    unfold keyFunc
    cases hmeth : token.Method with
    | HMAC h => exact absurd hmeth (hne h)
    | RSA h => exact ⟨_, rfl⟩
    | RSAPSS h => exact ⟨_, rfl⟩
    | ECDSA h => exact ⟨_, rfl⟩
    | Ed25519 => exact ⟨_, rfl⟩
    | None => exact ⟨_, rfl⟩
  refine ⟨?_, hkey⟩
  unfold ValidateJWT jwt.ParseWithClaims
  rw [hparts]
  match rest with
  | [] => exact ⟨_, rfl⟩
  | [_] => exact ⟨_, rfl⟩
  | _ :: _ :: _ :: _ => exact ⟨_, rfl⟩
  | [p1, p2] =>
    simp only [hheader, halg]
    cases hc : L.decodeClaims p1 with
    | none => exact ⟨_, rfl⟩
    | some claims =>
      cases hm : jwt.GetSigningMethod alg with
      | none => exact ⟨_, rfl⟩
      | some method =>
        cases hs : L.decodeSignature p2 with
        | none => exact ⟨_, rfl⟩
        | some sig =>
          obtain ⟨err, herr⟩ := hkey ⟨tokenString, method, header, claims, sig, false⟩ hm
          simp only [herr]
          exact ⟨_, rfl⟩

set_option maxRecDepth 100000 in
theorem ValidateJWT_rejects_non_HMAC_witness :
    ((∃ err, ValidateJWT plain.lib 5000000003
        (plain.encodeHeader ⟨some "RS256", some "JWT"⟩ ++ "." ++
          plain.encodeClaims (newClaims 5000000000 5000000001 5000000002 testUser 24) ++ "." ++
          plain.encodeSignature [1, 2, 3]) "test-secret-key" = .error err) ∧
      (∀ token : jwt.Token, jwt.GetSigningMethod "RS256" = some token.Method →
        ∃ err, keyFunc "test-secret-key" token = .error err)) ∧
    ValidateJWT plain.lib 5000000003
        (plain.encodeHeader ⟨some "RS256", some "JWT"⟩ ++ "." ++
          plain.encodeClaims (newClaims 5000000000 5000000001 5000000002 testUser 24) ++ "." ++
          plain.encodeSignature [1, 2, 3]) "test-secret-key"
      = .error (.failedToParse (.ErrTokenUnverifiable "unexpected signing method: RS256")) :=
  ⟨ValidateJWT_rejects_non_HMAC plain.lib 5000000003 _ "test-secret-key"
      (plain.encodeHeader ⟨some "RS256", some "JWT"⟩)
      [plain.encodeClaims (newClaims 5000000000 5000000001 5000000002 testUser 24),
        plain.encodeSignature [1, 2, 3]]
      ⟨some "RS256", some "JWT"⟩ "RS256" (by decide) (by decide) rfl (by decide),
    by rfl⟩

end utils

namespace auth

theorem extractFields_Roles (provider : String) (userInfo : UserInfo) (user : models.User) :
    (extractFields provider userInfo user).Roles = user.Roles := by
  unfold extractFields
  split
  · rfl
  · split
    · rfl
    · split
      · simp only []
        split <;> rfl
      · rfl

/-- `GetUserInfo` returns an identity, with the role list `["user"]`, whenever the response
has status 200 and its body decodes. -/
theorem GetUserInfo_ok (s : OAuthService) (now : Int) (get : String → GetResult)
    (decode : String → Except String UserInfo) (body : String) (userInfo : UserInfo)
    (hget : get s.config.OAuthUserInfoURL = .response 200 body)
    (hdec : decode body = .ok userInfo) :
    ∃ user, GetUserInfo s now get decode = .ok user ∧ user.Roles = ["user"] := by
  unfold GetUserInfo
  simp only [hget, hdec, extractFields_Roles, ne_eq, not_true_eq_false, if_false,
    List.length_nil, if_true]
  exact ⟨_, rfl, rfl⟩

/-- C10: whatever the provider tag and whatever the decoded user-info map (with a `roles`
field, without one, or empty), an identity returned by a successful `GetUserInfo` has a
role list that is not empty and is exactly `["user"]`. -/
theorem GetUserInfo_roles (s : OAuthService) (now : Int) (get : String → GetResult)
    (decode : String → Except String UserInfo) (user : models.User)
    (h : GetUserInfo s now get decode = .ok user) :
    user.Roles ≠ [] ∧ user.Roles = ["user"] := by
  cases hget : get s.config.OAuthUserInfoURL with
  | failed err =>
    unfold GetUserInfo at h
    simp only [hget] at h
    cases h
  | response status body =>
    by_cases hs : status = 200
    · subst hs
      cases hdec : decode body with
      | error err =>
        unfold GetUserInfo at h
        simp [hget, hdec] at h
      | ok userInfo =>
        obtain ⟨u, hu, hr⟩ := GetUserInfo_ok s now get decode body userInfo hget hdec
        rw [hu] at h
        cases h
        exact ⟨by rw [hr]; simp, hr⟩
    · unfold GetUserInfo at h
      simp [hget, hs] at h

theorem GetUserInfo_roles_witness :
    GetUserInfo ⟨sampleConfig "okta"⟩ 1700000000000000000
        (fun _ => .response 200 "")
        (fun _ => .ok [("sub", .string "00u1"), ("email", .string "a@example.com"),
          ("roles", .array [.string "admin"])])
      = .ok ⟨"00u1", "a@example.com", "", "", "okta", ["user"], 1700000000000000000⟩ ∧
    (models.User.mk "00u1" "a@example.com" "" "" "okta" ["user"] 1700000000000000000).Roles
      ≠ [] ∧
    (models.User.mk "00u1" "a@example.com" "" "" "okta" ["user"] 1700000000000000000).Roles
      = ["user"] :=
  ⟨rfl, GetUserInfo_roles ⟨sampleConfig "okta"⟩ 1700000000000000000
    (fun _ => .response 200 "")
    (fun _ => .ok [("sub", .string "00u1"), ("email", .string "a@example.com"),
      ("roles", .array [.string "admin"])]) _ rfl⟩

end auth

namespace auth

theorem getStringField_string (m : UserInfo) (k str : String)
    (h : m.lookup k = some (.string str)) : getStringField m k = str := by
  unfold getStringField
  rw [h]

theorem getStringField_other (m : UserInfo) (k : String)
    (h : ∀ str, m.lookup k ≠ some (.string str)) : getStringField m k = "" := by
  unfold getStringField
  cases hl : m.lookup k with
  | none => rfl
  | some v =>
    cases v with
    | string str => exact absurd hl (h str)
    | null => rfl
    | bool b => rfl
    | number literal => rfl
    | array items => rfl
    | object fields => rfl

/-- C11: on a response with status 200 whose body decodes to the map `m`, `GetUserInfo`
returns an identity whose fields follow the provider table: google takes `id`, `email`,
`name`, `picture`; okta takes `sub`, `email`, `name`, `picture`; azure takes `id`,
`displayName`, no picture, and `mail` for the email when that is not empty and
`userPrincipalName` otherwise. A field is `m[k]` when that is present and a string, and
the empty string otherwise, never an error. -/
theorem GetUserInfo_fields (s : OAuthService) (now : Int) (get : String → GetResult)
    (decode : String → Except String UserInfo) (body : String) (m : UserInfo)
    (hget : get s.config.OAuthUserInfoURL = .response 200 body)
    (hdec : decode body = .ok m) :
    (∃ user, GetUserInfo s now get decode = .ok user ∧
      (s.config.OAuthProvider = "google" →
        user.ID = getStringField m "id" ∧ user.Email = getStringField m "email" ∧
        user.Name = getStringField m "name" ∧ user.Picture = getStringField m "picture") ∧
      (s.config.OAuthProvider = "okta" →
        user.ID = getStringField m "sub" ∧ user.Email = getStringField m "email" ∧
        user.Name = getStringField m "name" ∧ user.Picture = getStringField m "picture") ∧
      (s.config.OAuthProvider = "azure" →
        user.ID = getStringField m "id" ∧ user.Name = getStringField m "displayName" ∧
        user.Picture = "" ∧
        (getStringField m "mail" ≠ "" → user.Email = getStringField m "mail") ∧
        (getStringField m "mail" = "" →
          user.Email = getStringField m "userPrincipalName"))) ∧
    (∀ k str, m.lookup k = some (.string str) → getStringField m k = str) ∧
    (∀ k, (∀ str, m.lookup k ≠ some (.string str)) → getStringField m k = "") := by
  refine ⟨?_, fun k str h => getStringField_string m k str h,
    fun k h => getStringField_other m k h⟩
  have hres : GetUserInfo s now get decode =
      .ok { extractFields s.config.OAuthProvider m
              ⟨"", "", "", "", s.config.OAuthProvider, [], now⟩ with
            Roles := [models.RoleUser] } := by
    unfold GetUserInfo
    simp only [hget, hdec, extractFields_Roles, ne_eq, not_true_eq_false, if_false,
      List.length_nil, if_true]
  refine ⟨_, hres, ?_, ?_, ?_⟩
  · intro hp
    simp [extractFields, hp]
  · intro hp
    simp [extractFields, hp]
  · intro hp
    refine ⟨?_, ?_, ?_, ?_, ?_⟩
    · by_cases hmail : getStringField m "mail" = "" <;> simp [extractFields, hp, hmail]
    · by_cases hmail : getStringField m "mail" = "" <;> simp [extractFields, hp, hmail]
    · by_cases hmail : getStringField m "mail" = "" <;> simp [extractFields, hp, hmail]
    · intro hmail
      simp [extractFields, hp, hmail]
    · intro hmail
      simp [extractFields, hp, hmail]

theorem GetUserInfo_fields_witness :
    (∃ user, GetUserInfo ⟨sampleConfig "azure"⟩ 1700000000000000000
        (fun _ => .response 200 "")
        (fun _ => .ok [("id", .string "7"), ("mail", .null),
          ("userPrincipalName", .string "a@example.com"), ("displayName", .string "A")])
        = .ok user ∧
      user.Email = "a@example.com" ∧ user.ID = "7" ∧ user.Name = "A" ∧ user.Picture = "") :=
  have h := (GetUserInfo_fields ⟨sampleConfig "azure"⟩ 1700000000000000000
    (fun _ => .response 200 "")
    (fun _ => .ok [("id", .string "7"), ("mail", .null),
      ("userPrincipalName", .string "a@example.com"), ("displayName", .string "A")])
    "" _ rfl rfl).1
  match h with
  | ⟨user, hu, _, _, haz⟩ =>
    ⟨user, hu, (haz rfl).2.2.2.2 rfl, (haz rfl).1, (haz rfl).2.1, (haz rfl).2.2.1⟩

end auth

namespace models

theorem lookup_viewer : RolePermissions.lookup "viewer" =
    some [⟨"profile", "read"⟩, ⟨"data", "read"⟩] := by
  decide

theorem HasPermission_mono (u v : User) (resource action : String)
    (hsub : ∀ r, r ∈ u.Roles → r ∈ v.Roles)
    (h : u.HasPermission resource action = true) : v.HasPermission resource action = true := by
  unfold User.HasPermission at h ⊢
  rw [roleLoop_iff] at h ⊢
  obtain ⟨r, hr, rest⟩ := h
  exact ⟨r, hsub r hr, rest⟩

/-- C17: the role table is nested. Whatever an identity with roles `["viewer"]` is
permitted, one with roles `["user"]` is permitted too, and whatever that one is permitted,
one with roles `["admin"]` is permitted too; and when every role of `u` is a role of `v`,
every permission granted to `u` is granted to `v`. -/
theorem role_table_nested (viewer user admin u v : User) (resource action : String)
    (hviewer : viewer.Roles = ["viewer"]) (huser : user.Roles = ["user"])
    (hadmin : admin.Roles = ["admin"]) (hsub : ∀ r, r ∈ u.Roles → r ∈ v.Roles) :
    (viewer.HasPermission resource action = true →
      user.HasPermission resource action = true) ∧
    (user.HasPermission resource action = true →
      admin.HasPermission resource action = true) ∧
    (u.HasPermission resource action = true → v.HasPermission resource action = true) := by
  refine ⟨?_, ?_, HasPermission_mono u v resource action hsub⟩
  · intro h
    unfold User.HasPermission at h ⊢
    rw [hviewer, roleLoop_iff] at h
    rw [huser, roleLoop_iff]
    obtain ⟨r, hr, perms, hl, p, hp, hg⟩ := h
    rw [List.mem_singleton] at hr
    subst hr
    rw [lookup_viewer] at hl
    cases hl
    refine ⟨"user", List.mem_singleton.mpr rfl, _, lookup_user, p, ?_, hg⟩
    simp only [List.mem_cons, List.mem_singleton, List.not_mem_nil, or_false] at hp ⊢
    rcases hp with rfl | rfl
    · exact Or.inl rfl
    · exact Or.inr (Or.inr (Or.inl rfl))
  · intro _
    unfold User.HasPermission
    rw [hadmin, roleLoop_iff]
    exact ⟨"admin", List.mem_singleton.mpr rfl, _, lookup_admin, ⟨"*", "*"⟩,
      List.mem_singleton.mpr rfl, Or.inl ⟨rfl, rfl⟩⟩

theorem role_table_nested_witness :
    ((User.mk "5" "" "" "" "" ["viewer"] 0).HasPermission "data" "read" = true →
      (User.mk "2" "" "" "" "" ["user"] 0).HasPermission "data" "read" = true) ∧
    ((User.mk "2" "" "" "" "" ["user"] 0).HasPermission "data" "read" = true →
      (User.mk "1" "" "" "" "" ["admin"] 0).HasPermission "data" "read" = true) ∧
    ((User.mk "6" "" "" "" "" ["viewer"] 0).HasPermission "data" "read" = true →
      (User.mk "8" "" "" "" "" ["guest", "viewer"] 0).HasPermission "data" "read" = true) :=
  role_table_nested _ _ _ (User.mk "6" "" "" "" "" ["viewer"] 0)
    (User.mk "8" "" "" "" "" ["guest", "viewer"] 0) "data" "read" rfl rfl rfl
    (by intro r hr; simp only [List.mem_singleton] at hr; subst hr; decide)

end models

namespace http

theorem Error_calls (w : ResponseWriter) (msg : String) (code : Nat) :
    (Error w msg code).calls = w.calls := by
  unfold Error ResponseWriter.Write ResponseWriter.WriteHeader ResponseWriter.SetHeader
  cases hs : w.Status <;> simp [hs]

theorem Error_SetCookies (w : ResponseWriter) (msg : String) (code : Nat) :
    (Error w msg code).SetCookies = w.SetCookies := by
  unfold Error ResponseWriter.Write ResponseWriter.WriteHeader ResponseWriter.SetHeader
  cases hs : w.Status <;> simp [hs]

theorem Error_Status (w : ResponseWriter) (msg : String) (code : Nat)
    (hfresh : w.Status = none) : (Error w msg code).Status = some code := by
  unfold Error ResponseWriter.Write ResponseWriter.WriteHeader ResponseWriter.SetHeader
  simp [hfresh]

theorem Error_Body (w : ResponseWriter) (msg : String) (code : Nat) :
    (Error w msg code).Body = w.Body ++ [.text msg] := by
  unfold Error ResponseWriter.Write ResponseWriter.WriteHeader ResponseWriter.SetHeader
  cases hs : w.Status <;> simp [hs]

end http

namespace middleware

open http

/-- C12: with a response not yet begun, a request whose `Authorization` header is missing or
empty, or whose value split on the space does not give exactly two parts with first part
`Bearer`, is answered 401 by `AuthMiddleware` with no call of `ValidateJWT` and without the
protected handler; and in every case the answer is either a 401 or the protected handler
run after `ValidateJWT` succeeded on the second part. -/
theorem AuthMiddleware_gate (W : World) (cfg : config.Config) (next : Handler)
    (r : Request) (w : ResponseWriter) (hfresh : w.Status = none) :
    ((r.HeaderGet "Authorization" = "" ∨
        (jwt.stringsSplit (r.HeaderGet "Authorization") ' ').length ≠ 2 ∨
        (jwt.stringsSplit (r.HeaderGet "Authorization") ' ').head? ≠ some "Bearer") →
      (AuthMiddleware W cfg next r w = http.Error w "Authorization header required" 401 ∨
        AuthMiddleware W cfg next r w
          = http.Error w "Invalid authorization header format" 401) ∧
      (AuthMiddleware W cfg next r w).Status = some 401 ∧
      (AuthMiddleware W cfg next r w).calls = w.calls) ∧
    ((∃ msg w', AuthMiddleware W cfg next r w = http.Error w' msg 401 ∧
        (AuthMiddleware W cfg next r w).Status = some 401) ∨
      (∃ tokenString claims,
        jwt.stringsSplit (r.HeaderGet "Authorization") ' ' = ["Bearer", tokenString] ∧
        utils.ValidateJWT W.L W.validateNow tokenString cfg.JWTSecret = .ok claims ∧
        AuthMiddleware W cfg next r w =
          next
            { r with
              ctxUser := some (models.User.mk claims.UserID claims.Email claims.Name ""
                claims.Provider claims.Roles 0) }
            (w.called (.ValidateJWT tokenString cfg.JWTSecret)))) := by
  by_cases h1 : r.HeaderGet "Authorization" = ""
  · have hres : AuthMiddleware W cfg next r w
        = http.Error w "Authorization header required" 401 := by
      simp [AuthMiddleware, h1]
    refine ⟨fun _ => ⟨Or.inl hres, ?_, ?_⟩, Or.inl ⟨_, _, hres, ?_⟩⟩
    · rw [hres, Error_Status _ _ _ hfresh]
    · rw [hres, Error_calls]
    · rw [hres, Error_Status _ _ _ hfresh]
  · by_cases h2 : (jwt.stringsSplit (r.HeaderGet "Authorization") ' ').length ≠ 2 ∨
        (jwt.stringsSplit (r.HeaderGet "Authorization") ' ').getD 0 "" ≠ "Bearer"
    · have hres : AuthMiddleware W cfg next r w
          = http.Error w "Invalid authorization header format" 401 := by
        simp only [AuthMiddleware, h1, if_false, h2, if_true]
      refine ⟨fun _ => ⟨Or.inr hres, ?_, ?_⟩, Or.inl ⟨_, _, hres, ?_⟩⟩
      · rw [hres, Error_Status _ _ _ hfresh]
      · rw [hres, Error_calls]
      · rw [hres, Error_Status _ _ _ hfresh]
    · have hshape : ∃ tokenString,
          jwt.stringsSplit (r.HeaderGet "Authorization") ' ' = ["Bearer", tokenString] := by
        rw [not_or, not_not, not_not] at h2
        obtain ⟨hlen, hhead⟩ := h2
        match hparts : jwt.stringsSplit (r.HeaderGet "Authorization") ' ', hlen, hhead with
        | [p0, p1], _, hhead =>
          simp only [List.getD_cons_zero] at hhead
          exact ⟨p1, by rw [hhead]⟩
      obtain ⟨tokenString, hparts⟩ := hshape
      constructor
      · intro hbad
        rcases hbad with hb | hb | hb
        · exact absurd hb h1
        · rw [hparts] at hb
          simp at hb
        · rw [hparts] at hb
          simp at hb
      · cases hv : utils.ValidateJWT W.L W.validateNow tokenString cfg.JWTSecret with
        | error err =>
          have hres : AuthMiddleware W cfg next r w
              = http.Error (w.called (.ValidateJWT tokenString cfg.JWTSecret))
                  ("Invalid token: " ++ W.errorText err) 401 := by
            simp only [AuthMiddleware, h1, if_false, h2]
            simp only [hparts, List.getD_cons_succ, List.getD_cons_zero, hv]
          refine Or.inl ⟨_, _, hres, ?_⟩
          rw [hres, Error_Status _ _ _ (by simpa [ResponseWriter.called] using hfresh)]
        | ok claims =>
          refine Or.inr ⟨tokenString, claims, hparts, hv, ?_⟩
          simp only [AuthMiddleware, h1, if_false, h2]
          simp only [hparts, List.getD_cons_succ, List.getD_cons_zero, hv]

end middleware

namespace middleware

open http

theorem AuthMiddleware_gate_witness :
    ((AuthMiddleware sample.world (auth.sampleConfig "google") sample.next
        (sample.callbackRequest [] []) .fresh).Status = some 401 ∧
      (AuthMiddleware sample.world (auth.sampleConfig "google") sample.next
        (sample.callbackRequest [] []) .fresh).calls = ResponseWriter.fresh.calls) ∧
    ((AuthMiddleware sample.world (auth.sampleConfig "google") sample.next
        (sample.requestWithAuthorization "Bearer") .fresh).Status = some 401 ∧
      (AuthMiddleware sample.world (auth.sampleConfig "google") sample.next
        (sample.requestWithAuthorization "Bearer") .fresh).calls
          = ResponseWriter.fresh.calls) ∧
    ((AuthMiddleware sample.world (auth.sampleConfig "google") sample.next
        (sample.requestWithAuthorization "bearer x") .fresh).Status = some 401 ∧
      (AuthMiddleware sample.world (auth.sampleConfig "google") sample.next
        (sample.requestWithAuthorization "bearer x") .fresh).calls
          = ResponseWriter.fresh.calls) ∧
    ((AuthMiddleware sample.world (auth.sampleConfig "google") sample.next
        (sample.requestWithAuthorization "Basic x") .fresh).Status = some 401 ∧
      (AuthMiddleware sample.world (auth.sampleConfig "google") sample.next
        (sample.requestWithAuthorization "Basic x") .fresh).calls
          = ResponseWriter.fresh.calls) ∧
    ((AuthMiddleware sample.world (auth.sampleConfig "google") sample.next
        (sample.requestWithAuthorization "Bearer  x") .fresh).Status = some 401 ∧
      (AuthMiddleware sample.world (auth.sampleConfig "google") sample.next
        (sample.requestWithAuthorization "Bearer  x") .fresh).calls
          = ResponseWriter.fresh.calls) ∧
    ((AuthMiddleware sample.world (auth.sampleConfig "google") sample.next
        (sample.requestWithAuthorization "Bearer a b") .fresh).Status = some 401 ∧
      (AuthMiddleware sample.world (auth.sampleConfig "google") sample.next
        (sample.requestWithAuthorization "Bearer a b") .fresh).calls
          = ResponseWriter.fresh.calls) :=
  ⟨((AuthMiddleware_gate sample.world (auth.sampleConfig "google") sample.next
      (sample.callbackRequest [] []) .fresh rfl).1 (by decide)).2,
    ((AuthMiddleware_gate sample.world (auth.sampleConfig "google") sample.next
      (sample.requestWithAuthorization "Bearer") .fresh rfl).1 (by decide)).2,
    ((AuthMiddleware_gate sample.world (auth.sampleConfig "google") sample.next
      (sample.requestWithAuthorization "bearer x") .fresh rfl).1 (by decide)).2,
    ((AuthMiddleware_gate sample.world (auth.sampleConfig "google") sample.next
      (sample.requestWithAuthorization "Basic x") .fresh rfl).1 (by decide)).2,
    ((AuthMiddleware_gate sample.world (auth.sampleConfig "google") sample.next
      (sample.requestWithAuthorization "Bearer  x") .fresh rfl).1 (by decide)).2,
    ((AuthMiddleware_gate sample.world (auth.sampleConfig "google") sample.next
      (sample.requestWithAuthorization "Bearer a b") .fresh rfl).1 (by decide)).2⟩

theorem hasAnyRole_iff (user : models.User) (roles : List String) :
    hasAnyRole user roles = true ↔ ∃ role ∈ roles, user.HasRole role = true := by
  induction roles with
  | nil => simp [hasAnyRole]
  | cons requiredRole rest ih =>
    unfold hasAnyRole
    cases hr : user.HasRole requiredRole with
    | true => simp [hr]
    | false => simp [hr, ih]

end middleware

namespace middleware

open http

/-- What `RequireRole` answers to an attached identity that holds none of the roles. -/
theorem RequireRole_reject (roles : List String) (next : Handler) (r : Request)
    (w : ResponseWriter) (u : models.User) (hu : r.ctxUser = some u)
    (hfresh : w.Status = none) (hno : hasAnyRole u roles = false) :
    RequireRole roles next r w =
      ((w.SetHeader "Content-Type" "application/json").WriteHeader 403).Encode
        (.object [("error", .string "Insufficient permissions")]) ∧
    (RequireRole roles next r w).Status = some 403 ∧
    (RequireRole roles next r w).Body = w.Body ++
      [.json (.object [("error", .string "Insufficient permissions")])] := by
  have hres : RequireRole roles next r w =
      ((w.SetHeader "Content-Type" "application/json").WriteHeader 403).Encode
        (.object [("error", .string "Insufficient permissions")]) := by
    simp [RequireRole, GetUserFromContext, hu, hno]
  refine ⟨hres, ?_, ?_⟩
  · rw [hres]
    simp [ResponseWriter.Encode, ResponseWriter.Write, ResponseWriter.WriteHeader,
      ResponseWriter.SetHeader, hfresh]
  · rw [hres]
    simp [ResponseWriter.Encode, ResponseWriter.Write, ResponseWriter.WriteHeader,
      ResponseWriter.SetHeader, hfresh]

theorem hasAnyRole_false (u : models.User) (roles : List String)
    (hnone : ¬ ∃ role ∈ roles, u.HasRole role = true) : hasAnyRole u roles = false := by
  cases h : hasAnyRole u roles with
  | false => rfl
  | true => exact absurd ((hasAnyRole_iff u roles).mp h) hnone

/-- C13: with an identity `u` attached to the request and a response not yet begun,
`RequireRole(L)` hands the request to the protected handler, and adds nothing to what the
handler does, exactly when `u.HasRole` holds for some role of `L`; otherwise it answers 403
with its own body and the handler is not run. The empty list rejects every identity. -/
theorem RequireRole_gate (L : List String) (next : Handler) (r : Request)
    (w : ResponseWriter) (u : models.User) (hu : r.ctxUser = some u)
    (hfresh : w.Status = none) :
    ((∃ role ∈ L, u.HasRole role = true) → RequireRole L next r w = next r w) ∧
    ((¬ ∃ role ∈ L, u.HasRole role = true) →
      RequireRole L next r w =
        ((w.SetHeader "Content-Type" "application/json").WriteHeader 403).Encode
          (.object [("error", .string "Insufficient permissions")]) ∧
      (RequireRole L next r w).Status = some 403) ∧
    (RequireRole [] next r w).Status = some 403 := by
  refine ⟨?_, ?_, (RequireRole_reject [] next r w u hu hfresh rfl).2.1⟩
  · intro hsome
    have hyes : hasAnyRole u L = true := (hasAnyRole_iff u L).mpr hsome
    simp [RequireRole, GetUserFromContext, hu, hyes]
  · intro hnone
    have h := RequireRole_reject L next r w u hu hfresh (hasAnyRole_false u L hnone)
    exact ⟨h.1, h.2.1⟩

theorem RequireRole_gate_witness :
    RequireRole ["user", "admin"] sample.next (sample.requestOf utils.testUser) .fresh
      = sample.next (sample.requestOf utils.testUser) .fresh ∧
    (RequireRole ["admin"] sample.next (sample.requestOf utils.testUser) .fresh).Status
      = some 403 ∧
    (RequireRole [] sample.next (sample.requestOf utils.testUser) .fresh).Status = some 403 :=
  ⟨(RequireRole_gate ["user", "admin"] sample.next (sample.requestOf utils.testUser) .fresh
      utils.testUser rfl rfl).1 ⟨"user", by decide, by decide⟩,
    ((RequireRole_gate ["admin"] sample.next (sample.requestOf utils.testUser) .fresh
      utils.testUser rfl rfl).2.1 (by decide)).2,
    (RequireRole_gate ["admin"] sample.next (sample.requestOf utils.testUser) .fresh
      utils.testUser rfl rfl).2.2⟩

/-- C14, at the failing input: the 403 of `RequirePermission(resource, action)` carries the
resource and the action, while the 403 of `RequireRole` carries the one field `error`, the
same for every list of required roles; so for `RequireRole("admin")` and an identity with
the role `user` the body does not name `admin`. -/
theorem RequireRole_forbidden_body_omits_roles :
    (∀ (resource action : String) (next : Handler) (r : Request) (w : ResponseWriter)
        (u : models.User), r.ctxUser = some u → w.Status = none →
        u.HasPermission resource action = false →
        (RequirePermission resource action next r w).Status = some 403 ∧
        (RequirePermission resource action next r w).Body = w.Body ++
          [.json (.object [("error", .string "Insufficient permissions"),
            ("resource", .string resource), ("action", .string action)])]) ∧
    (∀ (roles : List String) (next : Handler) (r : Request) (w : ResponseWriter)
        (u : models.User), r.ctxUser = some u → w.Status = none →
        (¬ ∃ role ∈ roles, u.HasRole role = true) →
        (RequireRole roles next r w).Status = some 403 ∧
        (RequireRole roles next r w).Body = w.Body ++
          [.json (.object [("error", .string "Insufficient permissions")])]) ∧
    (RequireRole ["admin"] sample.next (sample.requestOf utils.testUser) .fresh).Status
      = some 403 ∧
    (RequireRole ["admin"] sample.next (sample.requestOf utils.testUser) .fresh).Body
      = [.json (.object [("error", .string "Insufficient permissions")])] := by
  refine ⟨?_, ?_, rfl, rfl⟩
  · intro resource action next r w u hu hfresh hno
    simp [RequirePermission, GetUserFromContext, hu, hno, ResponseWriter.Encode,
      ResponseWriter.Write, ResponseWriter.WriteHeader, ResponseWriter.SetHeader, hfresh]
  · intro roles next r w u hu hfresh hnone
    exact (RequireRole_reject roles next r w u hu hfresh (hasAnyRole_false u roles hnone)).2

end middleware

namespace handlers

open http

theorem SetCookie_SetCookies (w : ResponseWriter) (c : Cookie) (hfresh : w.Status = none) :
    (SetCookie w c).SetCookies = w.SetCookies ++ [c] := by
  simp [SetCookie, hfresh]

theorem SetCookie_calls (w : ResponseWriter) (c : Cookie) : (SetCookie w c).calls = w.calls := by
  unfold SetCookie
  cases w.Status <;> rfl

/-- Once the state check has passed, every way out of `Callback` leaves the cookies as they
are after the `http.SetCookie` that follows the check. -/
theorem Callback_SetCookies (h : AuthHandler) (W : World) (r : Request) (w : ResponseWriter)
    (v : String) (hcookie : r.Cookie "oauth_state" = some v) (hstate : r.QueryGet "state" = v) :
    (Callback h W r w).SetCookies = (SetCookie w clearedStateCookie).SetCookies := by
  unfold Callback
  simp only [hcookie, hstate, ne_eq, not_true_eq_false, if_false]
  by_cases hcode : r.QueryGet "code" = ""
  · simp only [hcode, if_true, Error_SetCookies]
  · simp only [hcode, if_false]
    cases hex : auth.ExchangeCode W.exchange (r.QueryGet "code") with
    | error err => simp only [Error_SetCookies, ResponseWriter.called]
    | ok token =>
      simp only []
      cases hinfo : auth.GetUserInfo h.oauthService W.userInfoNow (W.client token)
          W.decode with
      | error err => simp only [Error_SetCookies, ResponseWriter.called]
      | ok user =>
        simp only []
        cases hgen : utils.GenerateJWT W.L W.issueNow1 W.issueNow2 W.issueNow3 user
            h.config.JWTSecret h.config.JWTExpiration with
        | error err => simp only [Error_SetCookies, ResponseWriter.called]
        | ok jwtToken =>
          simp only [ResponseWriter.Encode, ResponseWriter.Write, ResponseWriter.WriteHeader,
            ResponseWriter.SetHeader, ResponseWriter.called]
          cases (SetCookie w clearedStateCookie).Status <;> rfl

end handlers

namespace handlers

open http

theorem Callback_no_cookie (h : AuthHandler) (W : World) (r : Request) (w : ResponseWriter)
    (hcookie : r.Cookie "oauth_state" = none) :
    Callback h W r w = http.Error w "State cookie not found" 400 := by
  simp only [Callback, hcookie]

theorem Callback_state_mismatch (h : AuthHandler) (W : World) (r : Request)
    (w : ResponseWriter) (v : String) (hcookie : r.Cookie "oauth_state" = some v)
    (hstate : r.QueryGet "state" ≠ v) :
    Callback h W r w = http.Error w "Invalid state parameter" 400 := by
  simp only [Callback, hcookie, ne_eq, hstate, not_false_eq_true, if_true]

theorem Callback_no_code (h : AuthHandler) (W : World) (r : Request) (w : ResponseWriter)
    (v : String) (hcookie : r.Cookie "oauth_state" = some v) (hstate : r.QueryGet "state" = v)
    (hcode : r.QueryGet "code" = "") :
    Callback h W r w
      = http.Error (SetCookie w clearedStateCookie) "Authorization code not found" 400 := by
  simp only [Callback, hcookie, hstate, ne_eq, not_true_eq_false, if_false, hcode, if_true]

/-- With the state check passed and a code present, the first call of `Callback` is the code
exchange. -/
theorem Callback_calls_exchange (h : AuthHandler) (W : World) (r : Request)
    (w : ResponseWriter) (v : String) (hcookie : r.Cookie "oauth_state" = some v)
    (hstate : r.QueryGet "state" = v) (hcode : r.QueryGet "code" ≠ "") :
    ∃ rest, (Callback h W r w).calls
      = w.calls ++ Call.ExchangeCode (r.QueryGet "code") :: rest := by
  unfold Callback
  simp only [hcookie, hstate, ne_eq, not_true_eq_false, if_false, hcode]
  cases hex : auth.ExchangeCode W.exchange (r.QueryGet "code") with
  | error err =>
    exact ⟨[], by simp only [Error_calls, ResponseWriter.called, SetCookie_calls]⟩
  | ok token =>
    simp only []
    cases hinfo : auth.GetUserInfo h.oauthService W.userInfoNow (W.client token)
        W.decode with
    | error err =>
      exact ⟨[Call.GetUserInfo token], by
        simp only [Error_calls, ResponseWriter.called, SetCookie_calls, List.append_assoc,
          List.singleton_append]⟩
    | ok user =>
      simp only []
      cases hgen : utils.GenerateJWT W.L W.issueNow1 W.issueNow2 W.issueNow3 user
          h.config.JWTSecret h.config.JWTExpiration with
      | error err =>
        exact ⟨[Call.GetUserInfo token,
          Call.GenerateJWT user h.config.JWTSecret h.config.JWTExpiration], by
          simp [Error_calls, ResponseWriter.called, SetCookie_calls]⟩
      | ok jwtToken =>
        refine ⟨[Call.GetUserInfo token,
          Call.GenerateJWT user h.config.JWTSecret h.config.JWTExpiration], ?_⟩
        simp only [ResponseWriter.Encode, ResponseWriter.Write, ResponseWriter.WriteHeader,
          ResponseWriter.SetHeader, ResponseWriter.called]
        cases hs : (SetCookie w clearedStateCookie).Status <;>
          simp [SetCookie_calls]

/-- C15, amended: once the state check has passed (the `oauth_state` cookie is present and
equal to the `state` parameter), the response of `Callback`, begun on a fresh writer,
includes the `Set-Cookie` that invalidates `oauth_state` (empty value, `MaxAge` -1), whatever
the later outcome: missing code, exchange failure, user-info failure, or success. -/
theorem Callback_clears_state_cookie_after_check (h : AuthHandler) (W : World) (r : Request)
    (w : ResponseWriter) (v : String) (hcookie : r.Cookie "oauth_state" = some v)
    (hstate : r.QueryGet "state" = v) (hfresh : w.Status = none) :
    (⟨"oauth_state", "", "/", -1⟩ : Cookie) ∈ (Callback h W r w).SetCookies := by
  rw [Callback_SetCookies h W r w v hcookie hstate, SetCookie_SetCookies w _ hfresh]
  simp [clearedStateCookie]

theorem Callback_clears_state_cookie_after_check_witness :
    (⟨"oauth_state", "", "/", -1⟩ : Cookie) ∈
      (Callback sample.authHandler sample.world
        (sample.callbackRequest [("oauth_state", "abc")] [("state", "abc")])
        .fresh).SetCookies ∧
    (⟨"oauth_state", "", "/", -1⟩ : Cookie) ∈
      (Callback sample.authHandler sample.world
        (sample.callbackRequest [("oauth_state", "abc")]
          [("state", "abc"), ("code", "bad-code")]) .fresh).SetCookies ∧
    (⟨"oauth_state", "", "/", -1⟩ : Cookie) ∈
      (Callback sample.authHandler sample.world
        (sample.callbackRequest [("oauth_state", "abc")]
          [("state", "abc"), ("code", "good-code")]) .fresh).SetCookies :=
  ⟨Callback_clears_state_cookie_after_check sample.authHandler sample.world _ .fresh "abc"
      rfl rfl rfl,
    Callback_clears_state_cookie_after_check sample.authHandler sample.world _ .fresh "abc"
      rfl rfl rfl,
    Callback_clears_state_cookie_after_check sample.authHandler sample.world _ .fresh "abc"
      rfl rfl rfl⟩

/-- C15 fails as stated, on a callback request without the `oauth_state` cookie and on one
whose `state` parameter differs from the cookie: `Callback` answers 400 and returns before
its `http.SetCookie`, so the response has no `Set-Cookie`, whatever the handler and the
provider. -/
theorem Callback_rejected_sets_no_cookie :
    (∀ (h : AuthHandler) (W : World),
      (Callback h W (sample.callbackRequest [] [("state", "abc"), ("code", "good-code")])
        .fresh).Status = some 400 ∧
      (Callback h W (sample.callbackRequest [] [("state", "abc"), ("code", "good-code")])
        .fresh).SetCookies = []) ∧
    (∀ (h : AuthHandler) (W : World),
      (Callback h W (sample.callbackRequest [("oauth_state", "abc")]
        [("state", "xyz"), ("code", "good-code")]) .fresh).Status = some 400 ∧
      (Callback h W (sample.callbackRequest [("oauth_state", "abc")]
        [("state", "xyz"), ("code", "good-code")]) .fresh).SetCookies = []) := by
  constructor
  · intro h W
    rw [Callback_no_cookie h W
      (sample.callbackRequest [] [("state", "abc"), ("code", "good-code")]) .fresh rfl]
    exact ⟨rfl, rfl⟩
  · intro h W
    rw [Callback_state_mismatch h W
      (sample.callbackRequest [("oauth_state", "abc")]
        [("state", "xyz"), ("code", "good-code")]) .fresh "abc" rfl (by decide)]
    exact ⟨rfl, rfl⟩

/-- C16: on a fresh writer, a callback request whose `oauth_state` cookie is absent, or whose
`state` parameter differs from the value of the cookie, is answered 400 by `Callback` with
the error text alone and no call at all: no `ExchangeCode`, no `GetUserInfo`, no
`GenerateJWT`. `Callback` makes a call only when the cookie is present, the `state`
parameter equals its value and the `code` parameter is not empty, and then its first call
is the exchange of that code. -/
theorem Callback_state_validation (h : AuthHandler) (W : World) (r : Request)
    (w : ResponseWriter) (hfresh : w.Status = none) :
    ((r.Cookie "oauth_state" = none ∨
        ∃ v, r.Cookie "oauth_state" = some v ∧ r.QueryGet "state" ≠ v) →
      (Callback h W r w = http.Error w "State cookie not found" 400 ∨
        Callback h W r w = http.Error w "Invalid state parameter" 400) ∧
      (Callback h W r w).Status = some 400 ∧
      (Callback h W r w).calls = w.calls) ∧
    ((Callback h W r w).calls ≠ w.calls →
      ∃ v, r.Cookie "oauth_state" = some v ∧ r.QueryGet "state" = v ∧
        r.QueryGet "code" ≠ "") ∧
    (∀ v, r.Cookie "oauth_state" = some v → r.QueryGet "state" = v →
      r.QueryGet "code" ≠ "" →
      ∃ rest, (Callback h W r w).calls
        = w.calls ++ Call.ExchangeCode (r.QueryGet "code") :: rest) := by
  refine ⟨?_, ?_, fun v hc hs hcode => Callback_calls_exchange h W r w v hc hs hcode⟩
  · intro hbad
    rcases hbad with hnone | ⟨v, hc, hs⟩
    · have hres := Callback_no_cookie h W r w hnone
      refine ⟨Or.inl hres, ?_, ?_⟩
      · rw [hres, Error_Status _ _ _ hfresh]
      · rw [hres, Error_calls]
    · have hres := Callback_state_mismatch h W r w v hc hs
      refine ⟨Or.inr hres, ?_, ?_⟩
      · rw [hres, Error_Status _ _ _ hfresh]
      · rw [hres, Error_calls]
  · intro hcalls
    cases hc : r.Cookie "oauth_state" with
    | none =>
      rw [Callback_no_cookie h W r w hc, Error_calls] at hcalls
      exact absurd rfl hcalls
    | some v =>
      by_cases hs : r.QueryGet "state" = v
      · by_cases hcode : r.QueryGet "code" = ""
        · rw [Callback_no_code h W r w v hc hs hcode, Error_calls, SetCookie_calls] at hcalls
          exact absurd rfl hcalls
        · exact ⟨v, rfl, hs, hcode⟩
      · rw [Callback_state_mismatch h W r w v hc hs, Error_calls] at hcalls
        exact absurd rfl hcalls

theorem Callback_state_validation_witness :
    (Callback sample.authHandler sample.world
      (sample.callbackRequest [] [("state", "abc"), ("code", "good-code")]) .fresh).Status
        = some 400 ∧
    (Callback sample.authHandler sample.world
      (sample.callbackRequest [("oauth_state", "abc")]
        [("state", "xyz"), ("code", "good-code")]) .fresh).calls
        = ResponseWriter.fresh.calls ∧
    (∃ rest, (Callback sample.authHandler sample.world
      (sample.callbackRequest [("oauth_state", "abc")]
        [("state", "abc"), ("code", "good-code")]) .fresh).calls
        = ResponseWriter.fresh.calls ++ Call.ExchangeCode "good-code" :: rest) :=
  ⟨((Callback_state_validation sample.authHandler sample.world
      (sample.callbackRequest [] [("state", "abc"), ("code", "good-code")]) .fresh rfl).1
      (Or.inl rfl)).2.1,
    ((Callback_state_validation sample.authHandler sample.world
      (sample.callbackRequest [("oauth_state", "abc")]
        [("state", "xyz"), ("code", "good-code")]) .fresh rfl).1
      (Or.inr ⟨"abc", rfl, by decide⟩)).2.2,
    (Callback_state_validation sample.authHandler sample.world
      (sample.callbackRequest [("oauth_state", "abc")]
        [("state", "abc"), ("code", "good-code")]) .fresh rfl).2.2 "abc" rfl rfl (by decide)⟩

end handlers
